import Mathlib

/-!
Verification development for the stock-data / deep-research service.

This file shallowly embeds the components of the repository that the
specification's claims are about:

* the retry-governed DeepSeek remote-call client
  (`analysis/ai_analyzer.py` / `core/prompt_parser.py`, `_call_deepseek`),
* the report generators (`AIAnalyzer.generate_report`,
  `AIAnalyzer.generate_comparison_report`),
* the identifier lookup (`core/stock_lookup.py`, `StockLookup`),
* the metrics and trend engine (`analysis/data_processor.py`,
  `DataProcessor.calculate_metrics` / `get_trend_analysis`).

Machine floats in the source are modelled by exact rationals; strings are
Lean `String`s; the fallible HTTP transport is modelled by a script
assigning one transport outcome to each attempt index.
-/

set_option autoImplicit false

namespace StockMCP

/-! ## Remote-call client (`_call_deepseek`)

The Python client posts a chat-completion request and inspects the
response.  One attempt of the transport can: time out, raise an HTTP
error with a status code, raise some other exception, or deliver a
parsed JSON body.  The body is modelled by the only part the client
reads: the optional `choices` list, each choice reduced to its
`message.content` string. -/

/-- The parsed JSON body of a successful HTTP response, reduced to the
fields `_call_deepseek` reads: `choices`, each choice being its
`message.content` string.  `choices = none` models a body with no
`"choices"` key. -/
structure ApiResponse where
  choices : Option (List String)
deriving DecidableEq

/-- Outcome of one transport attempt (`requests.post` followed by
`raise_for_status` and `.json()`). -/
inductive Outcome where
  /-- `requests.exceptions.Timeout` -/
  | timeout : Outcome
  /-- `requests.exceptions.HTTPError` with the given status code -/
  | httpError (status : Nat) : Outcome
  /-- any other exception raised while performing the request,
      carrying its `str(e)` rendering -/
  | exc (msg : String) : Outcome
  /-- a well-formed HTTP response whose parsed body is `resp` -/
  | ok (resp : ApiResponse) : Outcome
deriving DecidableEq

/-- The error strings that differ between the two call sites
(`AIAnalyzer._call_deepseek` and `PromptParser._call_deepseek`). -/
structure Msgs where
  timeoutMsg : String
  rateMsg : String
  authMsg : String
  httpMsg : Nat → String
  genericMsg : String → String

/-- Messages of `AIAnalyzer._call_deepseek` (report generation). -/
def analyzerMsgs : Msgs where
  timeoutMsg := "生成报告超时，请稍后重试"
  rateMsg := "API请求频率过高，请稍后重试"
  authMsg := "API密钥无效，请检查DEEPSEEK_API_KEY配置"
  httpMsg := fun s => "生成报告失败: HTTP " ++ toString s
  genericMsg := fun e => "调用DeepSeek API失败: " ++ e

/-- Messages of `PromptParser._call_deepseek` (intent parsing). -/
def parserMsgs : Msgs where
  timeoutMsg := "API请求超时，请稍后重试"
  rateMsg := "API请求频率过高，请稍后重试"
  authMsg := "API密钥无效，请检查DEEPSEEK_API_KEY配置"
  httpMsg := fun s => "API请求失败: HTTP " ++ toString s
  genericMsg := fun e => "调用DeepSeek API失败: " ++ e

instance exceptDecEq {α β : Type} [DecidableEq α] [DecidableEq β] :
    DecidableEq (Except α β)
  | Except.ok a, Except.ok b =>
    if h : a = b then Decidable.isTrue (by rw [h])
    else Decidable.isFalse (by intro he; cases he; exact h rfl)
  | Except.ok _, Except.error _ => Decidable.isFalse (by intro h; cases h)
  | Except.error _, Except.ok _ => Decidable.isFalse (by intro h; cases h)
  | Except.error a, Except.error b =>
    if h : a = b then Decidable.isTrue (by rw [h])
    else Decidable.isFalse (by intro he; cases he; exact h rfl)

/-- Result of a `_call_deepseek` call: the Python return value
(`Except.error m` models a raised `ValueError m`; `Except.ok none`
models the function falling off the end of the loop and returning
`None`), the number of attempts performed, and the list of backoff
delays slept, in order. -/
structure CallResult where
  result : Except String (Option String)
  attempts : Nat
  sleeps : List Nat
deriving DecidableEq

/-- The retry loop of `_call_deepseek` (`for attempt in range(max_retries)`).
`remaining` is the number of loop iterations left (the current attempt is
the last one exactly when `remaining = 1`), `delay` is the current
`retry_delay`, `made` counts attempts already performed (so the current
attempt reads `script made`), and `sleeps` accumulates the delays slept.

Branches, mirroring the source:
* a body with a missing or empty `choices` list raises
  `ValueError("API返回格式异常")` inside the `try`, which the trailing
  `except Exception` handler catches, so it is retried like any other
  non-HTTP exception;
* `Timeout` retries, then raises the call-site timeout message;
* `HTTPError` 401 raises the auth message at once, 429 retries then
  raises the rate message, any other status raises at once;
* any other exception retries, then raises the generic message. -/
def callLoop (msgs : Msgs) (script : Nat → Outcome) :
    Nat → Nat → Nat → List Nat → CallResult
  | 0, _, made, sleeps => ⟨Except.ok none, made, sleeps⟩
  | (r + 1), delay, made, sleeps =>
    match script made with
    | Outcome.ok resp =>
      match resp.choices with
      | some (c :: _) => ⟨Except.ok (some c), made + 1, sleeps⟩
      | some [] =>
        if r = 0 then ⟨Except.error (msgs.genericMsg "API返回格式异常"), made + 1, sleeps⟩
        else callLoop msgs script r (delay * 2) (made + 1) (sleeps ++ [delay])
      | none =>
        if r = 0 then ⟨Except.error (msgs.genericMsg "API返回格式异常"), made + 1, sleeps⟩
        else callLoop msgs script r (delay * 2) (made + 1) (sleeps ++ [delay])
    | Outcome.timeout =>
      if r = 0 then ⟨Except.error msgs.timeoutMsg, made + 1, sleeps⟩
      else callLoop msgs script r (delay * 2) (made + 1) (sleeps ++ [delay])
    | Outcome.httpError s =>
      if s = 401 then ⟨Except.error msgs.authMsg, made + 1, sleeps⟩
      else if s = 429 then
        if r = 0 then ⟨Except.error msgs.rateMsg, made + 1, sleeps⟩
        else callLoop msgs script r (delay * 2) (made + 1) (sleeps ++ [delay])
      else ⟨Except.error (msgs.httpMsg s), made + 1, sleeps⟩
    | Outcome.exc m =>
      if r = 0 then ⟨Except.error (msgs.genericMsg m), made + 1, sleeps⟩
      else callLoop msgs script r (delay * 2) (made + 1) (sleeps ++ [delay])

/-- `_call_deepseek`: fails fast when the API key is absent
(Python `if not self.api_key`), then runs the 3-attempt retry loop with
the call-site base delay. -/
def callDeepseek (base : Nat) (msgs : Msgs) (apiKey : String)
    (script : Nat → Outcome) : CallResult :=
  if apiKey = "" then ⟨Except.error "DEEPSEEK_API_KEY 未设置", 0, []⟩
  else callLoop msgs script 3 base 0 []

/-- `AIAnalyzer._call_deepseek`: `max_retries = 3`, `retry_delay = 2`. -/
def analyzerCall (apiKey : String) (script : Nat → Outcome) : CallResult :=
  callDeepseek 2 analyzerMsgs apiKey script

/-- `PromptParser._call_deepseek`: `max_retries = 3`, `retry_delay = 1`. -/
def parserCall (apiKey : String) (script : Nat → Outcome) : CallResult :=
  callDeepseek 1 parserMsgs apiKey script

/-- A transport script given by a finite list of outcomes; attempts past
the end of the list time out. -/
def scriptOf (l : List Outcome) : Nat → Outcome :=
  fun i => l.getD i Outcome.timeout

/-- Prepend one outcome to a transport script. -/
def consScript (o : Outcome) (s : Nat → Outcome) : Nat → Outcome :=
  fun i => match i with
  | 0 => o
  | n + 1 => s n

/-- Characters removed by Python `str.strip()`. -/
def trimChars (l : List Char) : List Char :=
  ((l.dropWhile Char.isWhitespace).reverse.dropWhile Char.isWhitespace).reverse

/-- Python `str.strip()`. -/
def strTrim (s : String) : String := ⟨trimChars s.data⟩

/-- The attribute names defined on the `Settings` class
(`config/settings.py`): the akshare timeout, the two cache options, the
supported-market list, and the `validate` classmethod.  Python
attribute access on any other name raises `AttributeError`. -/
def settingsAttrs : List String :=
  ["AKSHARE_TIMEOUT", "CACHE_ENABLED", "CACHE_TTL", "SUPPORTED_MARKETS", "validate"]

/-- Python attribute access `settings.<name>`: succeeds exactly on the
attributes `Settings` defines, otherwise raises
`AttributeError: 'Settings' object has no attribute '<name>'`. -/
def settingsGetAttr (name : String) : Except String Unit :=
  if name ∈ settingsAttrs then Except.ok ()
  else Except.error ("'Settings' object has no attribute '" ++ name ++ "'")

/-- `AIAnalyzer.__init__` (and identically `PromptParser.__init__`):
reads `settings.DEEPSEEK_API_KEY`, `settings.DEEPSEEK_API_BASE` and
`settings.DEEPSEEK_MODEL` in order.  `Settings` defines none of them,
so the first read raises; the module-level `ai_analyzer = AIAnalyzer()`
at ai_analyzer.py:253 therefore fails at import time. -/
def analyzerInit : Except String Unit := do
  settingsGetAttr "DEEPSEEK_API_KEY"
  settingsGetAttr "DEEPSEEK_API_BASE"
  settingsGetAttr "DEEPSEEK_MODEL"

/-- The `try`/`except` tail of `AIAnalyzer.generate_report`
(ai_analyzer.py:204-208): the `try` block calls `_call_deepseek` and
returns `report.strip()`; the `except Exception` handler returns the
error rendered as report text.  (The `Except.ok none` case models
`_call_deepseek` returning `None`, in which case `None.strip()` raises
`AttributeError`, also caught.) -/
def tryGenerateReport (apiKey : String) (script : Nat → Outcome) : String :=
  match (analyzerCall apiKey script).result with
  | Except.ok (some report) => strTrim report
  | Except.ok none => "生成报告时出错: 'NoneType' object has no attribute 'strip'"
  | Except.error e => "生成报告时出错: " ++ e

/-- The `try`/`except` tail of `AIAnalyzer.generate_comparison_report`
(ai_analyzer.py:245-249), reduced in the same way. -/
def tryGenerateComparisonReport (apiKey : String) (script : Nat → Outcome) : String :=
  match (analyzerCall apiKey script).result with
  | Except.ok (some report) => strTrim report
  | Except.ok none => "生成对比报告时出错: 'NoneType' object has no attribute 'strip'"
  | Except.error e => "生成对比报告时出错: " ++ e

/-- `AIAnalyzer.generate_report`, reduced to its effects.  Prompt
assembly runs **before** the `try` block and evaluates
`requirements.get('report_length', settings.DEFAULT_REPORT_LENGTH)` at
ai_analyzer.py:190; `.get`'s default argument is evaluated eagerly and
`Settings` has no `DEFAULT_REPORT_LENGTH` attribute, so assembly raises
`AttributeError` on every call.  Only if that access succeeded would
the `try` block run and its handler convert failures to report text. -/
def generateReport (apiKey : String) (script : Nat → Outcome) :
    Except String String :=
  match settingsGetAttr "DEFAULT_REPORT_LENGTH" with
  | Except.error e => Except.error e
  | Except.ok _ => Except.ok (tryGenerateReport apiKey script)

/-- `AIAnalyzer.generate_comparison_report`, reduced in the same way:
the same eager `settings.DEFAULT_REPORT_LENGTH` access happens at
ai_analyzer.py:242, before the `try` block. -/
def generateComparisonReport (apiKey : String) (script : Nat → Outcome) :
    Except String String :=
  match settingsGetAttr "DEFAULT_REPORT_LENGTH" with
  | Except.error e => Except.error e
  | Except.ok _ => Except.ok (tryGenerateComparisonReport apiKey script)

/-! ## Identifier lookup (`core/stock_lookup.py`)

The reference list `ak.stock_info_a_code_name()` is a table of
`(code, name)` rows; it is modelled by a `List (String × String)`.
`pandas` boolean-mask row selection followed by `iloc[0]` picks the
first matching row, modelled by `List.find?`. -/

/-- The cached reference list: rows of `(code, name)`. -/
abbrev StockList := List (String × String)

/-- `p` is an initial segment of `l` (used for Python `str.startswith`
and as the matching step of substring search). -/
def listIsPre : List Char → List Char → Bool
  | [], _ => true
  | _ :: _, [] => false
  | a :: as, b :: bs => (a == b) && listIsPre as bs

/-- `needle` occurs as a contiguous substring of the second list
(Python `in` on strings / `pandas` `str.contains` with a literal
pattern). -/
def listIsSub (needle : List Char) : List Char → Bool
  | [] => needle.isEmpty
  | c :: rest => listIsPre needle (c :: rest) || listIsSub needle rest

/-- Python `str.startswith`. -/
def strStartsWith (s p : String) : Bool := listIsPre p.data s.data

/-- Fuel-driven worker for `replaceFrom`.  Each step consumes at least
one input character, so fuel equal to the input length is enough; the
out-of-fuel case returns the remainder unchanged and is unreachable
from `replaceFrom`. -/
def replaceFromAux (pat rep : List Char) : Nat → List Char → List Char
  | _, [] => []
  | 0, l => l
  | fuel + 1, c :: rest =>
    if pat ≠ [] ∧ listIsPre pat (c :: rest) then
      rep ++ replaceFromAux pat rep fuel (rest.drop (pat.length - 1))
    else c :: replaceFromAux pat rep fuel rest

/-- Left-to-right, non-overlapping replacement of the non-empty pattern
`pat` by `rep` (Python `str.replace`). -/
def replaceFrom (pat rep l : List Char) : List Char :=
  replaceFromAux pat rep l.length l

/-- Python `str.split(sep)` for a one-character separator. -/
def splitOnChar (c : Char) : List Char → List (List Char)
  | [] => [[]]
  | x :: xs =>
    let r := splitOnChar c xs
    if x = c then [] :: r
    else match r with
      | [] => [[x]]
      | h :: t => (x :: h) :: t

/-- `lookup_by_code`'s code cleaning:
`stock_code.replace(".SH", "").replace(".SZ", "").strip()`. -/
def cleanCode (s : String) : String :=
  ⟨trimChars (replaceFrom ".SZ".data [] (replaceFrom ".SH".data [] s.data))⟩

/-- The market-suffix derivation used in `normalize_code`: a code
starting with `"6"` maps to `"SH"`, with `"0"` or `"3"` to `"SZ"`,
anything else defaults to `"SH"`. -/
def deriveSuffix (code : String) : String :=
  if strStartsWith code "6" then "SH"
  else if strStartsWith code "0" || strStartsWith code "3" then "SZ"
  else "SH"

/-- `StockLookup.lookup_by_name`, specialised to metacharacter-free
inputs: empty list guard, then exact name match, then fuzzy name match,
first row in list order.  The fuzzy stage's `str.contains` compiles the
input as a regular expression; on patterns free of regex
metacharacters — the only ones the claims below feed to this
function — that is literal substring containment, as proved against
the faithful model `lookupByNameE` (see `lookupByNameE_lit`). -/
def lookupByName (lst : StockList) (stockName : String) :
    Option (String × String) :=
  if lst = [] then none
  else
    match lst.find? (fun p => p.2 == stockName) with
    | some p => some (p.1, p.2)
    | none =>
      match lst.find? (fun p => listIsSub stockName.data p.2.data) with
      | some p => some (p.1, p.2)
      | none => none

/-- `StockLookup.lookup_by_code`: cleans the code, empty list guard,
then exact code match; returns the cleaned input code together with the
matched name. -/
def lookupByCode (lst : StockList) (stockCode : String) :
    Option (String × String) :=
  let code := cleanCode stockCode
  if lst = [] then none
  else
    match lst.find? (fun p => p.1 == code) with
    | some p => some (code, p.2)
    | none => none

/-- `StockLookup.normalize_code`, specialised like `lookupByName` to
metacharacter-free inputs (`normalizeCodeE` is the faithful fallible
version, and `normalizeCodeE_lit` proves the two agree there).  A
dotted identifier is split into a code part and a suffix part and
resolved by code, the given suffix kept verbatim when non-empty, else
derived; an undotted identifier is resolved by name first and by code
second, the suffix always derived from the leading digit; every failure
yields `none`. -/
def normalizeCode (lst : StockList) (ident : String) :
    Option (String × String) :=
  if '.' ∈ ident.data then
    let parts := splitOnChar '.' ident.data
    let codePart : String := ⟨parts.headD []⟩
    let sfx : String := ⟨(parts.drop 1).headD []⟩
    match lookupByCode lst codePart with
    | some (code, name) =>
      let sfx := if sfx = "" then deriveSuffix code else sfx
      some (code ++ "." ++ sfx, name)
    | none => none
  else
    match lookupByName lst ident with
    | some (code, name) => some (code ++ "." ++ deriveSuffix code, name)
    | none =>
      match lookupByCode lst ident with
      | some (code, name) => some (code ++ "." ++ deriveSuffix code, name)
      | none => none

/-- `StockLookup.validate_code`. -/
def validateCode (lst : StockList) (ident : String) : Bool :=
  (normalizeCode lst ident).isSome

/-! ### The process-wide cache

`StockLookup._stock_list_cache` starts as `None`; `_get_stock_list`
fetches the reference list on first access and caches an empty table
when the fetch raises.  The cache state is `Option StockList`
(`none` = unpopulated, `some []` = populated with an empty table) and a
fetch outcome is `Option StockList` (`none` = the fetch raised). -/

/-- `StockLookup._get_stock_list`: returns the list to use and the new
cache state.  A fetch outcome is consumed only when the cache is
unpopulated. -/
def getStockList (cache : Option StockList) (fetch : Option StockList) :
    StockList × Option StockList :=
  match cache with
  | none =>
    match fetch with
    | some lst => (lst, some lst)
    | none => ([], some [])
  | some lst => (lst, some lst)

/-- `lookup_by_name` with the cache threaded through. -/
def lookupByNameS (cache : Option StockList) (fetch : Option StockList)
    (q : String) : Option (String × String) × Option StockList :=
  let (lst, c) := getStockList cache fetch
  (lookupByName lst q, c)

/-- `lookup_by_code` with the cache threaded through. -/
def lookupByCodeS (cache : Option StockList) (fetch : Option StockList)
    (q : String) : Option (String × String) × Option StockList :=
  let (lst, c) := getStockList cache fetch
  (lookupByCode lst q, c)

/-- `normalize_code` with the cache threaded through: each internal
lookup performs its own `_get_stock_list` access.  (The fuzzy stage
keeps the literal-pattern reduction; on the empty cached table every
lookup returns before reaching it.) -/
def normalizeCodeS (cache : Option StockList) (fetch : Option StockList)
    (ident : String) : Option (String × String) × Option StockList :=
  if '.' ∈ ident.data then
    let parts := splitOnChar '.' ident.data
    let codePart : String := ⟨parts.headD []⟩
    let sfx : String := ⟨(parts.drop 1).headD []⟩
    let (r, c) := lookupByCodeS cache fetch codePart
    match r with
    | some (code, name) =>
      let sfx := if sfx = "" then deriveSuffix code else sfx
      (some (code ++ "." ++ sfx, name), c)
    | none => (none, c)
  else
    let (r1, c1) := lookupByNameS cache fetch ident
    match r1 with
    | some (code, name) => (some (code ++ "." ++ deriveSuffix code, name), c1)
    | none =>
      let (r2, c2) := lookupByCodeS c1 fetch ident
      match r2 with
      | some (code, name) => (some (code ++ "." ++ deriveSuffix code, name), c2)
      | none => (none, c2)

/-- A small concrete reference list used to instantiate theorems. -/
def lookupDemoList : StockList :=
  [("000001", "平安银行"), ("600000", "浦发银行"), ("600519", "贵州茅台")]

/-! ### The fuzzy stage's pattern semantics

`lookup_by_name`'s fuzzy stage is `stock_list['name'].str.contains(stock_name,
na=False)`, and `pandas` compiles `stock_name` with Python's `re` module
(`regex=True` is the default): a malformed pattern raises `re.error`, and
metacharacters change what matches.  The following is an executable model of
the `re` fragment this call can exercise: literal characters, escapes
(`\d \D \w \W \s \S`, control letters, `\b \B \A \Z`, `\x` hex, escaped
punctuation), `.`, the anchors `^` and `$`, character classes with ranges and
negation, the quantifiers `*` `+` `?` (with lazy markers), alternation `|`,
and plain or `(?:`-style groups.  Outside the fragment (brace quantifiers are
read as literal braces, and `\u`-style escapes, backreferences and other
`(?`-extensions are rejected), no theorem below quantifies.  Perl classes use
the ASCII reading of digit/word/space.  Matching is boolean (as
`str.contains` needs), so capturing and greediness are irrelevant and the
star rule may prune empty-body iterations without changing any result. -/

/-- Predefined (Perl-style) character classes. -/
inductive PerlKind where
  | digit : PerlKind
  | word : PerlKind
  | space : PerlKind
deriving DecidableEq

/-- One item of a character class `[...]`. -/
inductive ClsItem where
  | single (c : Char) : ClsItem
  | range (lo hi : Char) : ClsItem
  | perl (k : PerlKind) (negated : Bool) : ClsItem
deriving DecidableEq

/-- Regex abstract syntax (groups are dissolved into the structure:
boolean search never needs captures). -/
inductive Re where
  | eps : Re
  | ch (c : Char) : Re
  | anyChar : Re
  | cls (neg : Bool) (items : List ClsItem) : Re
  | startAnchor : Re
  | endAnchor : Re
  | startAbs : Re
  | endAbs : Re
  | wordBoundary : Re
  | nonWordBoundary : Re
  | seq (a b : Re) : Re
  | alt (a b : Re) : Re
  | star (a : Re) : Re
  | plus (a : Re) : Re
  | opt (a : Re) : Re
deriving DecidableEq

/-- The characters `re` treats specially; a pattern avoiding all of
them is matched literally. -/
def reMetaChars : List Char :=
  ['\\', '.', '^', '$', '*', '+', '?', '(', ')', '[', ']', '\x7b', '\x7d', '|']

/-- `re.error` rendering: message plus the offending position. -/
def reErr (msg : String) (pos : Nat) : String :=
  msg ++ " at position " ++ toString pos

/-- Quantifiability of the most recent atom of the current sequence. -/
inductive LastKind where
  | nothing : LastKind
  | anchor : LastKind
  | plain : LastKind
  | quantified : LastKind
  | lazyMarked : LastKind
deriving DecidableEq

/-- A parser frame: one (possibly parenthesised) alternation in
progress.  `alts` and `atoms` are accumulated in reverse. -/
structure Frame where
  alts : List Re
  atoms : List Re
  lastK : LastKind
  openPos : Nat

/-- State while scanning a character class. -/
structure ClsState where
  neg : Bool
  items : List ClsItem
  pending : Option Char
  dash : Bool
  first : Bool
  openPos : Nat

/-- Parser mode: ordinary scanning, the pending-lookahead states after
`(`, `(?`, `\` and `\x`, and the class-scanning states. -/
inductive PMode where
  | normal : PMode
  | afterOpen : PMode
  | afterOpenQ (qPos : Nat) : PMode
  | esc (escPos : Nat) : PMode
  | escX (escPos : Nat) (v1 : Option Nat) : PMode
  | clsStart (openPos : Nat) : PMode
  | inCls (cs : ClsState) : PMode
  | clsEscMode (cs : ClsState) (escPos : Nat) : PMode

/-- Fold a reversed atom list into a right-nested sequence. -/
def seqOfRev (atoms : List Re) : Re :=
  (atoms.reverse).foldr Re.seq Re.eps

/-- Fold alternatives (in order) into a right-nested alternation. -/
def joinAlts : List Re → Re
  | [] => Re.eps
  | [r] => r
  | r :: rs => Re.alt r (joinAlts rs)

/-- The current sequence of a frame. -/
def finishSeq (fr : Frame) : Re := seqOfRev fr.atoms

/-- The regex denoted by a completed frame. -/
def finishFrame (fr : Frame) : Re :=
  joinAlts ((finishSeq fr :: fr.alts).reverse)

/-- Append an atom to the current sequence. -/
def pushAtom (fr : Frame) (r : Re) (k : LastKind) : Frame :=
  ⟨fr.alts, r :: fr.atoms, k, fr.openPos⟩

/-- Wrap the most recent atom in a quantifier. -/
def applyQuant (fr : Frame) (f : Re → Re) : Frame :=
  ⟨fr.alts,
    (match fr.atoms with
     | a :: rest => f a :: rest
     | [] => []),
    LastKind.quantified, fr.openPos⟩

/-- Add an ordinary character to a class in progress (resolving a
pending range). -/
def clsAddChar (cs : ClsState) (c : Char) (pos : Nat) :
    Except String ClsState :=
  if cs.dash then
    match cs.pending with
    | some p =>
      if p ≤ c then
        Except.ok ⟨cs.neg, ClsItem.range p c :: cs.items, none, false, false, cs.openPos⟩
      else
        Except.error (reErr ("bad character range " ++ String.singleton p ++ "-"
          ++ String.singleton c) pos)
    | none => Except.ok ⟨cs.neg, cs.items, some c, false, false, cs.openPos⟩
  else
    match cs.pending with
    | some p =>
      Except.ok ⟨cs.neg, ClsItem.single p :: cs.items, some c, false, false, cs.openPos⟩
    | none => Except.ok ⟨cs.neg, cs.items, some c, false, false, cs.openPos⟩

/-- Close a class: flush the pending character and a trailing dash. -/
def clsFlush (cs : ClsState) : List ClsItem :=
  let base :=
    match cs.pending with
    | some p => ClsItem.single p :: cs.items
    | none => cs.items
  let base := if cs.dash then ClsItem.single '-' :: base else base
  base.reverse

/-- Numeric value of one hexadecimal digit. -/
def hexVal (c : Char) : Option Nat :=
  if '0' ≤ c ∧ c ≤ '9' then some (c.toNat - '0'.toNat)
  else if 'a' ≤ c ∧ c ≤ 'f' then some (c.toNat - 'a'.toNat + 10)
  else if 'A' ≤ c ∧ c ≤ 'F' then some (c.toNat - 'A'.toNat + 10)
  else none

/-- Control characters denoted by letter escapes (`\n`, `\t`, …). -/
def escControl (e : Char) : Option Char :=
  if e = 'n' then some '\n'
  else if e = 't' then some '\t'
  else if e = 'r' then some '\r'
  else if e = 'f' then some '\x0c'
  else if e = 'v' then some '\x0b'
  else if e = 'a' then some '\x07'
  else none

/-- A `\d`-style class letter, when `e` is one. -/
def escPerl (e : Char) : Option (PerlKind × Bool) :=
  if e = 'd' then some (PerlKind.digit, false)
  else if e = 'D' then some (PerlKind.digit, true)
  else if e = 'w' then some (PerlKind.word, false)
  else if e = 'W' then some (PerlKind.word, true)
  else if e = 's' then some (PerlKind.space, false)
  else if e = 'S' then some (PerlKind.space, true)
  else none

/-- An escape inside a character class. -/
def clsEsc (cs : ClsState) (e : Char) (pos : Nat) : Except String ClsState :=
  match escPerl e with
  | some (k, ng) =>
    if cs.dash then Except.error (reErr "bad character range" pos)
    else
      match cs.pending with
      | some p =>
        Except.ok ⟨cs.neg, ClsItem.perl k ng :: ClsItem.single p :: cs.items,
          none, false, false, cs.openPos⟩
      | none =>
        Except.ok ⟨cs.neg, ClsItem.perl k ng :: cs.items, none, false, false, cs.openPos⟩
  | none =>
    match escControl e with
    | some c => clsAddChar cs c pos
    | none =>
      if e = '0' then clsAddChar cs '\x00' pos
      else if e.isAlpha ∨ e.isDigit then
        Except.error (reErr ("bad escape \\" ++ String.singleton e) pos)
      else clsAddChar cs e pos

/-- An escape in ordinary position: the atom it denotes (with its
quantifiability), or an error. -/
def normEsc (e : Char) (pos : Nat) : Except String (Re × LastKind) :=
  match escPerl e with
  | some (k, ng) => Except.ok (Re.cls false [ClsItem.perl k ng], LastKind.plain)
  | none =>
    match escControl e with
    | some c => Except.ok (Re.ch c, LastKind.plain)
    | none =>
      if e = 'b' then Except.ok (Re.wordBoundary, LastKind.anchor)
      else if e = 'B' then Except.ok (Re.nonWordBoundary, LastKind.anchor)
      else if e = 'A' then Except.ok (Re.startAbs, LastKind.anchor)
      else if e = 'Z' then Except.ok (Re.endAbs, LastKind.anchor)
      else if e = '0' then Except.ok (Re.ch '\x00', LastKind.plain)
      else if e.isDigit then
        Except.error (reErr ("invalid group reference " ++ String.singleton e) (pos + 1))
      else if e.isAlpha then
        Except.error (reErr ("bad escape \\" ++ String.singleton e) pos)
      else Except.ok (Re.ch e, LastKind.plain)

/-- Result of consuming one pattern character: an error, or the next
parser state. -/
inductive StepRes where
  | err (e : String) : StepRes
  | cont (stk : List Frame) (cur : Frame) (m : PMode) : StepRes

/-- One ordinary-mode character. -/
def normalChar (c : Char) (pos : Nat) (stk : List Frame) (cur : Frame) : StepRes :=
  if c = '|' then
    StepRes.cont stk ⟨finishSeq cur :: cur.alts, [], LastKind.nothing, cur.openPos⟩
      PMode.normal
  else if c = '(' then
    StepRes.cont (cur :: stk) ⟨[], [], LastKind.nothing, pos⟩ PMode.afterOpen
  else if c = ')' then
    match stk with
    | [] => StepRes.err (reErr "unbalanced parenthesis" pos)
    | parent :: stk2 =>
      StepRes.cont stk2 (pushAtom parent (finishFrame cur) LastKind.plain) PMode.normal
  else if c = '*' ∨ c = '+' ∨ c = '?' then
    match cur.lastK with
    | LastKind.plain =>
      let f := if c = '*' then Re.star else if c = '+' then Re.plus else Re.opt
      StepRes.cont stk (applyQuant cur f) PMode.normal
    | LastKind.quantified =>
      if c = '?' then
        StepRes.cont stk ⟨cur.alts, cur.atoms, LastKind.lazyMarked, cur.openPos⟩
          PMode.normal
      else StepRes.err (reErr "multiple repeat" pos)
    | LastKind.lazyMarked => StepRes.err (reErr "multiple repeat" pos)
    | _ => StepRes.err (reErr "nothing to repeat" pos)
  else if c = '.' then
    StepRes.cont stk (pushAtom cur Re.anyChar LastKind.plain) PMode.normal
  else if c = '^' then
    StepRes.cont stk (pushAtom cur Re.startAnchor LastKind.anchor) PMode.normal
  else if c = '$' then
    StepRes.cont stk (pushAtom cur Re.endAnchor LastKind.anchor) PMode.normal
  else if c = '[' then StepRes.cont stk cur (PMode.clsStart pos)
  else if c = '\\' then StepRes.cont stk cur (PMode.esc pos)
  else StepRes.cont stk (pushAtom cur (Re.ch c) LastKind.plain) PMode.normal

/-- One character inside a class body. -/
def classChar (cs : ClsState) (c : Char) (pos : Nat) (stk : List Frame)
    (cur : Frame) : StepRes :=
  if c = ']' ∧ ¬cs.first then
    StepRes.cont stk (pushAtom cur (Re.cls cs.neg (clsFlush cs)) LastKind.plain)
      PMode.normal
  else if c = '\\' then StepRes.cont stk cur (PMode.clsEscMode cs pos)
  else if c = '-' ∧ cs.pending.isSome ∧ ¬cs.dash then
    StepRes.cont stk cur
      (PMode.inCls ⟨cs.neg, cs.items, cs.pending, true, false, cs.openPos⟩)
  else
    match clsAddChar cs c pos with
    | Except.error er => StepRes.err er
    | Except.ok cs2 => StepRes.cont stk cur (PMode.inCls cs2)

/-- Consume one pattern character in the given mode.  Error messages
mirror CPython's `re.error` texts. -/
def stepChar (c : Char) (pos : Nat) (stk : List Frame) (cur : Frame) :
    PMode → StepRes
  | PMode.normal => normalChar c pos stk cur
  | PMode.afterOpen =>
    if c = '?' then StepRes.cont stk cur (PMode.afterOpenQ pos)
    else normalChar c pos stk cur
  | PMode.afterOpenQ qp =>
    if c = ':' then StepRes.cont stk cur PMode.normal
    else StepRes.err (reErr ("unknown extension ?" ++ String.singleton c) qp)
  | PMode.esc ep =>
    if c = 'x' then StepRes.cont stk cur (PMode.escX ep none)
    else
      match normEsc c ep with
      | Except.error er => StepRes.err er
      | Except.ok (r, k) => StepRes.cont stk (pushAtom cur r k) PMode.normal
  | PMode.escX ep none =>
    match hexVal c with
    | some v1 => StepRes.cont stk cur (PMode.escX ep (some v1))
    | none => StepRes.err (reErr "incomplete escape \\x" ep)
  | PMode.escX ep (some v1) =>
    match hexVal c with
    | some v2 =>
      StepRes.cont stk (pushAtom cur (Re.ch (Char.ofNat (16 * v1 + v2))) LastKind.plain)
        PMode.normal
    | none => StepRes.err (reErr "incomplete escape \\x" ep)
  | PMode.clsStart op =>
    if c = '^' then StepRes.cont stk cur (PMode.inCls ⟨true, [], none, false, true, op⟩)
    else classChar ⟨false, [], none, false, true, op⟩ c pos stk cur
  | PMode.inCls cs => classChar cs c pos stk cur
  | PMode.clsEscMode cs ep =>
    match clsEsc cs c ep with
    | Except.error er => StepRes.err er
    | Except.ok cs2 => StepRes.cont stk cur (PMode.inCls cs2)

/-- End of pattern: finish, or report what is left open. -/
def finishUp (pos : Nat) (stk : List Frame) (cur : Frame) : PMode → Except String Re
  | PMode.normal =>
    match stk with
    | [] => Except.ok (finishFrame cur)
    | _ => Except.error (reErr "missing ), unterminated subpattern" cur.openPos)
  | PMode.afterOpen =>
    Except.error (reErr "missing ), unterminated subpattern" cur.openPos)
  | PMode.afterOpenQ _ => Except.error (reErr "unexpected end of pattern" pos)
  | PMode.esc ep => Except.error (reErr "bad escape (end of pattern)" ep)
  | PMode.escX ep _ => Except.error (reErr "incomplete escape \\x" ep)
  | PMode.clsStart op => Except.error (reErr "unterminated character set" op)
  | PMode.inCls cs => Except.error (reErr "unterminated character set" cs.openPos)
  | PMode.clsEscMode _ ep => Except.error (reErr "bad escape (end of pattern)" ep)

/-- The pattern scanner: one structural pass over the characters,
consuming exactly one character per step. -/
def parseLoop : List Char → Nat → List Frame → Frame → PMode → Except String Re
  | [], pos, stk, cur, m => finishUp pos stk cur m
  | c :: rest, pos, stk, cur, m =>
    match stepChar c pos stk cur m with
    | StepRes.err e => Except.error e
    | StepRes.cont stk2 cur2 m2 => parseLoop rest (pos + 1) stk2 cur2 m2

/-- Compile a pattern string (`re.compile`, reduced to what boolean
search needs). -/
def rePatternOf (pat : String) : Except String Re :=
  parseLoop pat.data 0 [] ⟨[], [], LastKind.nothing, 0⟩ PMode.normal

/-- Word characters for `\w` and `\b` (ASCII reading). -/
def isWordChar (c : Char) : Bool := c.isAlphanum || c = '_'

/-- Membership of a character in a predefined class. -/
def perlMatch : PerlKind → Char → Bool
  | PerlKind.digit, c => c.isDigit
  | PerlKind.word, c => isWordChar c
  | PerlKind.space, c => c.isWhitespace

/-- Membership of a character in one class item. -/
def clsItemMatch (c : Char) : ClsItem → Bool
  | ClsItem.single a => c == a
  | ClsItem.range lo hi => decide (lo ≤ c) && decide (c ≤ hi)
  | ClsItem.perl k ng => perlMatch k c != ng

/-- Membership of a character in a (possibly negated) class. -/
def clsMatch (neg : Bool) (items : List ClsItem) (c : Char) : Bool :=
  (items.any (clsItemMatch c)) != neg

/-- Is the character at `pos` (if any) a word character? -/
def wordAt (full : List Char) (pos : Nat) : Bool :=
  match full[pos]? with
  | some c => isWordChar c
  | none => false

/-- Is the character before `pos` (if any) a word character? -/
def wordBefore (full : List Char) (pos : Nat) : Bool :=
  match pos with
  | 0 => false
  | p + 1 => wordAt full p

/-- The backtracking matcher, in continuation-passing style over
positions of `full`; `fuel` decreases at every entry, bounding the
recursion (the driver passes enough for every pattern it compiles). -/
def mrun (full : List Char) : Nat → Re → Nat → (Nat → Bool) → Bool
  | 0, _, _, _ => false
  | fuel + 1, re, pos, k =>
    match re with
    | Re.eps => k pos
    | Re.ch c =>
      match full[pos]? with
      | some c2 => (c == c2) && k (pos + 1)
      | none => false
    | Re.anyChar =>
      match full[pos]? with
      | some c2 => (c2 != '\n') && k (pos + 1)
      | none => false
    | Re.cls neg items =>
      match full[pos]? with
      | some c2 => clsMatch neg items c2 && k (pos + 1)
      | none => false
    | Re.startAnchor => decide (pos = 0) && k pos
    | Re.startAbs => decide (pos = 0) && k pos
    | Re.endAnchor =>
      (decide (pos = full.length)
        || (decide (pos + 1 = full.length) && decide (full[pos]? = some '\n'))) && k pos
    | Re.endAbs => decide (pos = full.length) && k pos
    | Re.wordBoundary => (wordAt full pos != wordBefore full pos) && k pos
    | Re.nonWordBoundary => (wordAt full pos == wordBefore full pos) && k pos
    | Re.seq a b => mrun full fuel a pos (fun p2 => mrun full fuel b p2 k)
    | Re.alt a b => mrun full fuel a pos k || mrun full fuel b pos k
    | Re.star a =>
      mrun full fuel a pos (fun p2 => decide (pos < p2) && mrun full fuel (Re.star a) p2 k)
        || k pos
    | Re.plus a => mrun full fuel a pos (fun p2 => mrun full fuel (Re.star a) p2 k)
    | Re.opt a => mrun full fuel a pos k || k pos

/-- Structural size of a regex, used to bound the matcher fuel. -/
def reSize : Re → Nat
  | Re.seq a b => reSize a + reSize b + 1
  | Re.alt a b => reSize a + reSize b + 1
  | Re.star a => reSize a + 1
  | Re.plus a => reSize a + 1
  | Re.opt a => reSize a + 1
  | _ => 1

/-- Matcher fuel for a pattern against an `n`-character string. -/
def mfuel (re : Re) (n : Nat) : Nat := (reSize re + 1) * (n + 2) * 2

/-- `re.search` as a boolean: does the pattern match at any start
position? -/
def reSearch (re : Re) (hay : List Char) : Bool :=
  (List.range (hay.length + 1)).any
    (fun i => mrun hay (mfuel re hay.length) re i (fun _ => true))

/-- `StockLookup.lookup_by_name` with the fuzzy stage's `str.contains`
modelled faithfully: the pattern is compiled once by `re` (a malformed
pattern raises `re.error`, which propagates — the method has no
handler), then searched against each name.  The exact-match stage runs
first and never touches the pattern. -/
def lookupByNameE (lst : StockList) (stockName : String) :
    Except String (Option (String × String)) :=
  if lst = [] then Except.ok none
  else
    match lst.find? (fun p => p.2 == stockName) with
    | some p => Except.ok (some (p.1, p.2))
    | none =>
      match rePatternOf stockName with
      | Except.error e => Except.error e
      | Except.ok re =>
        match lst.find? (fun p => reSearch re p.2.data) with
        | some p => Except.ok (some (p.1, p.2))
        | none => Except.ok none

/-- `StockLookup.normalize_code` with the faithful fuzzy stage: the
dotted branch never runs the fuzzy match; the undotted branch runs
`lookup_by_name` (whose `re.error` propagates) before falling back to
`lookup_by_code`. -/
def normalizeCodeE (lst : StockList) (ident : String) :
    Except String (Option (String × String)) :=
  if '.' ∈ ident.data then
    let parts := splitOnChar '.' ident.data
    let codePart : String := ⟨parts.headD []⟩
    let sfx : String := ⟨(parts.drop 1).headD []⟩
    match lookupByCode lst codePart with
    | some (code, name) =>
      let sfx := if sfx = "" then deriveSuffix code else sfx
      Except.ok (some (code ++ "." ++ sfx, name))
    | none => Except.ok none
  else
    match lookupByNameE lst ident with
    | Except.error e => Except.error e
    | Except.ok (some (code, name)) =>
      Except.ok (some (code ++ "." ++ deriveSuffix code, name))
    | Except.ok none =>
      match lookupByCode lst ident with
      | some (code, name) =>
        Except.ok (some (code ++ "." ++ deriveSuffix code, name))
      | none => Except.ok none

/-- The regex a metacharacter-free pattern compiles to: the right-nested
sequence of its characters. -/
def litChain (p : List Char) : Re :=
  (p.map Re.ch).foldr Re.seq Re.eps

/-! ## Metrics engine (`analysis/data_processor.py`)

A `pandas.DataFrame` is modelled by its named columns, each a list of
rational values (the numeric columns are all the code reads).  Float
arithmetic is modelled exactly over `ℚ`; the one float expression that
is irrational — the annualized volatility `std * sqrt(252) * 100` — is
kept symbolically as the sample variance it is the square root of
(constructor `MVal.vol`). -/

/-- A data frame: named columns of rational values. -/
structure DataFrame where
  cols : List (String × List ℚ)
deriving DecidableEq

/-- `pandas` `DataFrame.empty` for the rectangular frames the code
works on: no columns, or columns with no rows. -/
def dfEmpty (df : DataFrame) : Bool :=
  df.cols.isEmpty || df.cols.all (fun c => c.2.isEmpty)

/-- A metric value: either an exactly-represented rational, or
`vol v` standing for the float `sqrt v * sqrt 252 * 100` (annualized
volatility in percent, `v` the sample variance of the daily returns). -/
inductive MVal where
  | q (x : ℚ) : MVal
  | vol (variance : ℚ) : MVal
deriving DecidableEq

/-- Python `str.lower()` of a column name. -/
def strLower (s : String) : String := ⟨s.data.map Char.toLower⟩

/-- Column-name test for the close price:
`'收盘' in col or 'close' in col.lower()`. -/
def isCloseName (s : String) : Bool :=
  listIsSub "收盘".data s.data || listIsSub "close".data (strLower s).data

/-- Column-name test for the open price. -/
def isOpenName (s : String) : Bool :=
  listIsSub "开盘".data s.data || listIsSub "open".data (strLower s).data

/-- Column-name test for the high price. -/
def isHighName (s : String) : Bool :=
  listIsSub "最高".data s.data || listIsSub "high".data (strLower s).data

/-- Column-name test for the low price. -/
def isLowName (s : String) : Bool :=
  listIsSub "最低".data s.data || listIsSub "low".data (strLower s).data

/-- Column-name test for the volume. -/
def isVolumeName (s : String) : Bool :=
  listIsSub "成交量".data s.data || listIsSub "volume".data (strLower s).data

/-- The close column chosen by `calculate_metrics`: the sniffing loop
has no `break`, so the **last** matching column wins. -/
def closeColumn (df : DataFrame) : Option (String × List ℚ) :=
  df.cols.reverse.find? (fun c => isCloseName c.1)

/-- The volume column chosen by `calculate_metrics`: the `elif` chain
gives the close/open/high/low tests priority, and the last matching
column wins. -/
def volumeColumn (df : DataFrame) : Option (String × List ℚ) :=
  df.cols.reverse.find? (fun c =>
    !isCloseName c.1 && !isOpenName c.1 && !isHighName c.1 &&
      !isLowName c.1 && isVolumeName c.1)

/-- The close column chosen by `get_trend_analysis`: its loop `break`s,
so the **first** matching column wins. -/
def trendCloseColumn (df : DataFrame) : Option (String × List ℚ) :=
  df.cols.find? (fun c => isCloseName c.1)

/-- `Series.max` (0 on an empty series, unreached by the code). -/
def listMax : List ℚ → ℚ
  | [] => 0
  | x :: xs => xs.foldl max x

/-- `Series.min`. -/
def listMin : List ℚ → ℚ
  | [] => 0
  | x :: xs => xs.foldl min x

/-- `Series.mean`. -/
def listMean (l : List ℚ) : ℚ := l.sum / l.length

/-- `Series.pct_change().dropna()`: day-over-day relative changes. -/
def pctChange : List ℚ → List ℚ
  | x :: y :: rest => (y - x) / x :: pctChange (y :: rest)
  | _ => []

/-- Running products with seed `acc` (`Series.cumprod` helper). -/
def cumprodAux (acc : ℚ) : List ℚ → List ℚ
  | [] => []
  | x :: xs => (acc * x) :: cumprodAux (acc * x) xs

/-- `(1 + daily_returns).cumprod()`, applied to the raw returns. -/
def cumprodOnePlus (l : List ℚ) : List ℚ :=
  cumprodAux 1 (l.map (fun r => 1 + r))

/-- Running maxima carrying the maximum so far
(`Series.expanding().max()` helper). -/
def runningMaxAux (m : ℚ) : List ℚ → List ℚ
  | [] => []
  | x :: xs => max m x :: runningMaxAux (max m x) xs

/-- `Series.expanding().max()`. -/
def runningMax : List ℚ → List ℚ
  | [] => []
  | x :: xs => x :: runningMaxAux x xs

/-- Index of the first occurrence of the running best value. -/
def idxBestAux (better : ℚ → ℚ → Bool) : Nat → Nat → ℚ → List ℚ → Nat
  | _, best, _, [] => best
  | i, best, bv, x :: xs =>
    if better x bv then idxBestAux better (i + 1) i x xs
    else idxBestAux better (i + 1) best bv xs

/-- `Series.idxmax` on a positional index (first occurrence). -/
def idxMax : List ℚ → Nat
  | [] => 0
  | x :: xs => idxBestAux (fun a b => a > b) 1 0 x xs

/-- `Series.idxmin` on a positional index (first occurrence). -/
def idxMin : List ℚ → Nat
  | [] => 0
  | x :: xs => idxBestAux (fun a b => a < b) 1 0 x xs

/-- Sample variance of a list (`Series.std(ddof=1)` squared).  For a
single observation `pandas` yields `NaN`; that value is never examined
by any claim and is represented by `0` here. -/
def sampleVariance (l : List ℚ) : ℚ :=
  if l.length ≤ 1 then 0
  else
    let m := listMean l
    (l.map (fun x => (x - m) * (x - m))).sum / (l.length - 1 : ℚ)

/-- The `期间涨跌` / `期间涨跌幅(%)` block (rows > 1). -/
def changeBlock (close : List ℚ) : List (String × MVal) :=
  let startPrice := close.headD 0
  let endPrice := close.getLastD 0
  let change := endPrice - startPrice
  [("期间涨跌", MVal.q change),
   ("期间涨跌幅(%)", MVal.q (change / startPrice * 100))]

/-- The drawdown / run-up block (rows > 1): max single-day gain and
loss, max drawdown, and — when the pre-peak minimum strictly precedes
the peak — the max run-up. -/
def drawdownBlock (close : List ℚ) : List (String × MVal) :=
  let dr := pctChange close
  let dailyPart :=
    if dr.length > 0 then
      [("最大单日涨幅(%)", MVal.q (listMax dr * 100)),
       ("最大单日跌幅(%)", MVal.q (listMin dr * 100))]
    else []
  let cumulative := cumprodOnePlus dr
  let rmax := runningMax cumulative
  let drawdown := List.zipWith (fun c m => (c - m) / m) cumulative rmax
  let ddPart := [("最大回撤(%)", MVal.q (listMin drawdown * 100))]
  let maxIdx := idxMax close
  let minIdx := idxMin (close.take (maxIdx + 1))
  let gainPart :=
    if minIdx < maxIdx then
      [("最大涨幅(%)",
        MVal.q ((close.getD maxIdx 0 - close.getD minIdx 0) /
          close.getD minIdx 0 * 100))]
    else []
  dailyPart ++ ddPart ++ gainPart

/-- The annualized-volatility block (rows > 1). -/
def volatilityBlock (close : List ℚ) : List (String × MVal) :=
  let dr := pctChange close
  if dr.length > 0 then [("年化波动率(%)", MVal.vol (sampleVariance dr))]
  else []

/-- The volume-statistics block, emitted whenever a volume column was
recognized. -/
def volumeBlock (volumes : List ℚ) : List (String × MVal) :=
  [("平均成交量", MVal.q (listMean volumes)),
   ("最大成交量", MVal.q (listMax volumes)),
   ("最新成交量", MVal.q (volumes.getLastD 0))]

/-- `DataProcessor.calculate_metrics`.  The Python dict with its
insertion order is modelled as an association list; each guarded block
of the source contributes its entries in source order. -/
def calculateMetrics (df : DataFrame) : List (String × MVal) :=
  if dfEmpty df then []
  else
    match closeColumn df with
    | none => []
    | some cl =>
      let close := cl.2
      let base :=
        [("最新收盘价", MVal.q (close.getLastD 0)),
         ("最高价", MVal.q (listMax close)),
         ("最低价", MVal.q (listMin close)),
         ("平均收盘价", MVal.q (listMean close))]
      let tail1 := if close.length > 1 then changeBlock close else []
      let tail2 := if close.length > 1 then drawdownBlock close else []
      let tail3 := if close.length > 1 then volatilityBlock close else []
      let tail4 :=
        match volumeColumn df with
        | some vl => volumeBlock vl.2
        | none => []
      base ++ tail1 ++ tail2 ++ tail3 ++ tail4

/-! ### Trend analysis (`get_trend_analysis`) -/

/-- `x` values `0, 1, …, n-1` as rationals. -/
def indexList (n : Nat) : List ℚ := (List.range n).map (fun i => (i : ℚ))

/-- The ordinary-least-squares slope of `y` against the row index
(`np.polyfit(x, y, 1)[0]`, normal-equations closed form). -/
def olsSlope (y : List ℚ) : ℚ :=
  let n : ℚ := y.length
  let xs := indexList y.length
  let sx := xs.sum
  let sy := y.sum
  let sxy := (List.zipWith (fun a b => a * b) xs y).sum
  let sxx := (xs.map (fun x => x * x)).sum
  (n * sxy - sx * sy) / (n * sxx - sx * sx)

/-- The ordinary-least-squares intercept (`np.polyfit(x, y, 1)[1]`). -/
def olsIntercept (y : List ℚ) : ℚ :=
  (y.sum - olsSlope y * (indexList y.length).sum) / (y.length : ℚ)

/-- Residual sum of squares of the degree-1 fit
(`ss_res = np.sum((y - y_pred) ** 2)`). -/
def ssRes (y : List ℚ) : ℚ :=
  let fit := fun x => olsSlope y * x + olsIntercept y
  (List.zipWith (fun x v => (v - fit x) * (v - fit x)) (indexList y.length) y).sum

/-- Total sum of squares (`ss_tot = np.sum((y - np.mean(y)) ** 2)`). -/
def ssTot (y : List ℚ) : ℚ :=
  let m := listMean y
  (y.map (fun v => (v - m) * (v - m))).sum

/-- `r_squared = 1 - ss_res / ss_tot if ss_tot > 0 else 0`. -/
def rSquared (y : List ℚ) : ℚ :=
  if ssTot y > 0 then 1 - ssRes y / ssTot y else 0

/-- Two-decimal, always-signed rendering of a rational percentage
(the source formats the float with `:+.2f`). -/
def fmt2 (x : ℚ) : String :=
  let sgn := if x < 0 then "-" else "+"
  let c : Int := (|x| * 100 + 1 / 2).floor
  let ip := c / 100
  let fp := c % 100
  sgn ++ toString ip ++ "." ++ (if fp < 10 then "0" else "") ++ toString fp

/-- The default neutral assessment built at the top of
`get_trend_analysis`. -/
def defaultTrend : List (String × String) :=
  [("趋势方向", "横盘"), ("趋势强度", "弱"), ("描述", "")]

/-- `DataProcessor.get_trend_analysis`. -/
def getTrendAnalysis (df : DataFrame) : List (String × String) :=
  if dfEmpty df then []
  else
    match trendCloseColumn df with
    | none => []
    | some cl =>
      let close := cl.2
      if close.length < 2 then defaultTrend
      else
        let slope := olsSlope close
        let rsq := rSquared close
        let changePct := (close.getLastD 0 - close.headD 0) / close.headD 0 * 100
        let dir := if slope > 0 then "上涨" else if slope < 0 then "下跌" else "横盘"
        let strength := if |rsq| > 7 / 10 then "强" else if |rsq| > 4 / 10 then "中" else "弱"
        [("趋势方向", dir), ("趋势强度", strength),
         ("描述", "期间涨跌幅 " ++ fmt2 changePct ++ "%，趋势" ++ dir ++ "，强度" ++ strength)]

/-! ## Helper lemmas about the retry loop -/

/-- One step of the retry loop: the current attempt either terminates
the call (returning with one more attempt performed and no new sleep),
or — only when it is not the last attempt — sleeps the current delay,
doubles it, and recurses. -/
theorem callLoop_step (msgs : Msgs) (script : Nat → Outcome) (n d made : Nat)
    (sl : List Nat) :
    (∃ res : Except String (Option String),
      callLoop msgs script (n + 1) d made sl = ⟨res, made + 1, sl⟩) ∨
    (n ≠ 0 ∧ callLoop msgs script (n + 1) d made sl
        = callLoop msgs script n (d * 2) (made + 1) (sl ++ [d])) := by
  cases h : script made with
  | ok resp =>
    rcases resp with ⟨choices⟩
    rcases choices with _ | (_ | ⟨c, cs⟩)
    · by_cases hn : n = 0
      · subst hn
        exact Or.inl ⟨Except.error (msgs.genericMsg "API返回格式异常"),
          by simp [callLoop, h]⟩
      · exact Or.inr ⟨hn, by simp [callLoop, h, hn]⟩
    · by_cases hn : n = 0
      · subst hn
        exact Or.inl ⟨Except.error (msgs.genericMsg "API返回格式异常"),
          by simp [callLoop, h]⟩
      · exact Or.inr ⟨hn, by simp [callLoop, h, hn]⟩
    · exact Or.inl ⟨Except.ok (some c), by simp [callLoop, h]⟩
  | timeout =>
    by_cases hn : n = 0
    · subst hn; exact Or.inl ⟨Except.error msgs.timeoutMsg, by simp [callLoop, h]⟩
    · exact Or.inr ⟨hn, by simp [callLoop, h, hn]⟩
  | httpError s =>
    by_cases h4 : s = 401
    · exact Or.inl ⟨Except.error msgs.authMsg, by simp [callLoop, h, h4]⟩
    · by_cases h9 : s = 429
      · by_cases hn : n = 0
        · subst hn
          exact Or.inl ⟨Except.error msgs.rateMsg, by simp [callLoop, h, h4, h9]⟩
        · exact Or.inr ⟨hn, by simp [callLoop, h, h4, h9, hn]⟩
      · exact Or.inl ⟨Except.error (msgs.httpMsg s), by simp [callLoop, h, h4, h9]⟩
  | exc m =>
    by_cases hn : n = 0
    · subst hn; exact Or.inl ⟨Except.error (msgs.genericMsg m), by simp [callLoop, h]⟩
    · exact Or.inr ⟨hn, by simp [callLoop, h, hn]⟩

/-- The loop never performs more attempts than it has iterations. -/
theorem callLoop_attempts_le (msgs : Msgs) (script : Nat → Outcome) :
    ∀ (r d made : Nat) (sl : List Nat),
      (callLoop msgs script r d made sl).attempts ≤ made + r := by
  intro r
  induction r with
  | zero => intro d made sl; simp [callLoop]
  | succ n ih =>
    intro d made sl
    rcases callLoop_step msgs script n d made sl with ⟨res, hh⟩ | ⟨hn, hh⟩
    · rw [hh]; show made + 1 ≤ made + (n + 1); omega
    · rw [hh]
      have := ih (d * 2) (made + 1) (sl ++ [d])
      omega

/-- Splitting off the head of a doubling chain of delays. -/
theorem doubling_chain (d k : Nat) :
    (List.range (k + 1)).map (fun i => d * 2 ^ i)
      = d :: (List.range k).map (fun i => d * 2 * 2 ^ i) := by
  rw [List.range_succ_eq_map, List.map_cons, List.map_map]
  refine congrArg₂ _ (by simp) (List.map_congr_left ?_)
  intro a _
  simp only [Function.comp_apply, Nat.succ_eq_add_one, pow_succ]
  ring

/-- The slept delays always form an initial segment of the doubling
chain `d, 2d, 4d, …`, of length strictly below the iteration count. -/
theorem callLoop_sleeps_shape (msgs : Msgs) (script : Nat → Outcome) :
    ∀ (r d made : Nat) (sl : List Nat),
      ∃ k, (k = 0 ∨ k + 1 ≤ r) ∧
        (callLoop msgs script r d made sl).sleeps
          = sl ++ (List.range k).map (fun i => d * 2 ^ i) := by
  intro r
  induction r with
  | zero => intro d made sl; exact ⟨0, Or.inl rfl, by simp [callLoop]⟩
  | succ n ih =>
    intro d made sl
    rcases callLoop_step msgs script n d made sl with ⟨res, hh⟩ | ⟨hn, hh⟩
    · exact ⟨0, Or.inl rfl, by rw [hh]; simp⟩
    · rcases ih (d * 2) (made + 1) (sl ++ [d]) with ⟨k, hk, hsl⟩
      refine ⟨k + 1, Or.inr (by omega), ?_⟩
      rw [hh, hsl, doubling_chain]
      simp

/-- The loop's behaviour depends on the transport script only through
the outcomes of the attempts it can still perform. -/
theorem callLoop_congr (msgs : Msgs) :
    ∀ (r : Nat) (s1 s2 : Nat → Outcome) (d made : Nat) (sl : List Nat),
      (∀ i, made ≤ i → i < made + r → s1 i = s2 i) →
      callLoop msgs s1 r d made sl = callLoop msgs s2 r d made sl := by
  intro r
  induction r with
  | zero => intro s1 s2 d made sl _; simp [callLoop]
  | succ n ih =>
    intro s1 s2 d made sl h
    have h0 : s1 made = s2 made := h made le_rfl (by omega)
    have hrec := ih s1 s2 (d * 2) (made + 1) (sl ++ [d])
      (fun i h1 h2 => h i (by omega) (by omega))
    cases h2 : s2 made with
    | ok resp =>
      rcases resp with ⟨choices⟩
      rcases choices with _ | (_ | ⟨c, cs⟩) <;>
        by_cases hn : n = 0 <;>
          simp [callLoop, h0, h2, hn, hrec]
    | timeout =>
      by_cases hn : n = 0 <;> simp [callLoop, h0, h2, hn, hrec]
    | httpError s =>
      by_cases h4 : s = 401
      · simp [callLoop, h0, h2, h4]
      · by_cases h9 : s = 429
        · by_cases hn : n = 0 <;> simp [callLoop, h0, h2, h4, h9, hn, hrec]
        · simp [callLoop, h0, h2, h4, h9]
    | exc m =>
      by_cases hn : n = 0 <;> simp [callLoop, h0, h2, hn, hrec]

/-! ## Claims about the remote-call client -/

/-- Claim C1: with a transport that times out twice and then delivers a
well-formed response, `_call_deepseek` returns the first choice's
message content after exactly three attempts, having slept
`base_delay + 2*base_delay` in total (base 2 for report generation,
base 1 for parsing); and in general it performs at most 3 attempts on
any transport behaviour, the slept delays doubling from the base after
each failed attempt. -/
theorem claim1_retry_and_backoff :
    analyzerCall "k" (scriptOf [Outcome.timeout, Outcome.timeout,
        Outcome.ok ⟨some ["REPORT"]⟩])
      = ⟨Except.ok (some "REPORT"), 3, [2, 4]⟩
    ∧ parserCall "k" (scriptOf [Outcome.timeout, Outcome.timeout,
        Outcome.ok ⟨some ["REPORT"]⟩])
      = ⟨Except.ok (some "REPORT"), 3, [1, 2]⟩
    ∧ (analyzerCall "k" (scriptOf [Outcome.timeout, Outcome.timeout,
        Outcome.ok ⟨some ["REPORT"]⟩])).sleeps.sum = 2 + 2 * 2
    ∧ (parserCall "k" (scriptOf [Outcome.timeout, Outcome.timeout,
        Outcome.ok ⟨some ["REPORT"]⟩])).sleeps.sum = 1 + 2 * 1
    ∧ (∀ (key : String) (script : Nat → Outcome),
        (analyzerCall key script).attempts ≤ 3
        ∧ (parserCall key script).attempts ≤ 3)
    ∧ (∀ (key : String) (script : Nat → Outcome),
        (∃ k, k ≤ 2 ∧ (analyzerCall key script).sleeps
            = (List.range k).map (fun i => 2 * 2 ^ i))
        ∧ (∃ k, k ≤ 2 ∧ (parserCall key script).sleeps
            = (List.range k).map (fun i => 1 * 2 ^ i))) := by
  refine ⟨by decide, by decide, by decide, by decide, ?_, ?_⟩
  · intro key script
    constructor
    · unfold analyzerCall callDeepseek
      by_cases hk : key = ""
      · simp [hk]
      · simpa [hk] using callLoop_attempts_le analyzerMsgs script 3 2 0 []
    · unfold parserCall callDeepseek
      by_cases hk : key = ""
      · simp [hk]
      · simpa [hk] using callLoop_attempts_le parserMsgs script 3 1 0 []
  · intro key script
    constructor
    · unfold analyzerCall callDeepseek
      by_cases hk : key = ""
      · exact ⟨0, by omega, by simp [hk]⟩
      · rcases callLoop_sleeps_shape analyzerMsgs script 3 2 0 [] with ⟨k, hk2, hsl⟩
        exact ⟨k, by omega, by simp [hk, hsl]⟩
    · unfold parserCall callDeepseek
      by_cases hk : key = ""
      · exact ⟨0, by omega, by simp [hk]⟩
      · rcases callLoop_sleeps_shape parserMsgs script 3 1 0 [] with ⟨k, hk2, hsl⟩
        exact ⟨k, by omega, by simp [hk, hsl]⟩

/-- Claim C2 counterexample: a first-attempt response with an empty
`choices` list does **not** end the call — the client sleeps the
backoff delay, retries, and succeeds on the second attempt, so the
malformed response was retried, contrary to the claim. -/
theorem claim2_counterexample :
    analyzerCall "k" (scriptOf [Outcome.ok ⟨some []⟩, Outcome.ok ⟨some ["OK"]⟩])
      = ⟨Except.ok (some "OK"), 2, [2]⟩
    ∧ (analyzerCall "k" (scriptOf [Outcome.ok ⟨some []⟩,
        Outcome.ok ⟨some ["OK"]⟩])).attempts ≠ 1
    ∧ (analyzerCall "k" (scriptOf [Outcome.ok ⟨some []⟩,
        Outcome.ok ⟨some ["OK"]⟩])).sleeps ≠ [] := by
  refine ⟨by decide, by decide, by decide⟩

/-- Claim C2 (amended): a response lacking a non-empty `choices` list
raises `ValueError("API返回格式异常")` inside the `try`, which the
trailing generic handler catches, so on a non-final attempt the client
behaves exactly as it does on a timeout — it sleeps the current backoff
delay and retries — and only when the malformed response arrives on the
final attempt does the call fail, with the generic message wrapping the
malformed-response message. -/
theorem claim2_amended :
    (∀ (key : String) (rest : Nat → Outcome),
      analyzerCall key (consScript (Outcome.ok ⟨some []⟩) rest)
        = analyzerCall key (consScript Outcome.timeout rest))
    ∧ (∀ (key : String) (rest : Nat → Outcome),
      analyzerCall key (consScript (Outcome.ok ⟨none⟩) rest)
        = analyzerCall key (consScript Outcome.timeout rest))
    ∧ (∀ (key : String) (rest : Nat → Outcome),
      parserCall key (consScript (Outcome.ok ⟨some []⟩) rest)
        = parserCall key (consScript Outcome.timeout rest))
    ∧ analyzerCall "k" (scriptOf [Outcome.ok ⟨some []⟩, Outcome.ok ⟨some []⟩,
        Outcome.ok ⟨some []⟩])
      = ⟨Except.error "调用DeepSeek API失败: API返回格式异常", 3, [2, 4]⟩
    ∧ parserCall "k" (scriptOf [Outcome.ok ⟨some []⟩, Outcome.ok ⟨some []⟩,
        Outcome.ok ⟨some []⟩])
      = ⟨Except.error "调用DeepSeek API失败: API返回格式异常", 3, [1, 2]⟩ := by
  refine ⟨?_, ?_, ?_, by decide, by decide⟩ <;>
  · intro key rest
    simp only [analyzerCall, parserCall, callDeepseek]
    by_cases hk : key = ""
    · simp [hk]
    · simp only [hk, if_false]
      have e1 : ∀ (msgs : Msgs) (d : Nat) (o : Outcome),
          o = Outcome.ok ⟨some []⟩ ∨ o = Outcome.ok ⟨none⟩ ∨ o = Outcome.timeout →
          callLoop msgs (consScript o rest) 3 d 0 []
            = callLoop msgs (consScript o rest) 2 (d * 2) 1 [d] := by
        intro msgs d o ho
        rcases ho with rfl | rfl | rfl <;> simp [callLoop, consScript]
      rw [e1 _ _ _ (by simp), e1 _ _ _ (by simp)]
      refine callLoop_congr _ 2 _ _ _ 1 _ (fun i h1 h2 => ?_)
      rcases i with _ | j
      · omega
      · rfl

/-- Claim C3: an HTTP 401 terminates `_call_deepseek` immediately on
whatever attempt it occurs: the authentication error is raised with no
further attempt and no backoff sleep; in particular a first-attempt 401
yields exactly one attempt and no sleeps at both call sites. -/
theorem claim3_auth_fail_fast :
    (∀ (msgs : Msgs) (rest : Nat → Outcome) (r d made : Nat) (sl : List Nat),
      callLoop msgs (fun i => if i = made then Outcome.httpError 401 else rest i)
          (r + 1) d made sl
        = ⟨Except.error msgs.authMsg, made + 1, sl⟩)
    ∧ analyzerCall "k" (scriptOf [Outcome.httpError 401])
      = ⟨Except.error "API密钥无效，请检查DEEPSEEK_API_KEY配置", 1, []⟩
    ∧ parserCall "k" (scriptOf [Outcome.httpError 401])
      = ⟨Except.error "API密钥无效，请检查DEEPSEEK_API_KEY配置", 1, []⟩
    ∧ analyzerCall "k" (scriptOf [Outcome.timeout, Outcome.httpError 401])
      = ⟨Except.error "API密钥无效，请检查DEEPSEEK_API_KEY配置", 2, [2]⟩ := by
  refine ⟨?_, by decide, by decide, by decide⟩
  intro msgs rest r d made sl
  simp [callLoop]

/-- Claim C9 (code bug): the claim says the report generators never
raise, converting every failure to a report-text string.  The `except`
handlers embody exactly that intent, but prompt assembly runs before
the `try` and eagerly evaluates `settings.DEFAULT_REPORT_LENGTH`
(ai_analyzer.py:190 and :242), an attribute `config/settings.py` never
defines — so both generators raise `AttributeError` to the caller on
every invocation (and the module cannot even be imported, since
`AIAnalyzer.__init__` reads the equally missing
`settings.DEEPSEEK_API_KEY`).  The `try`-block conversion itself is
proved correct: had the attribute existed, a successful call would
return the trimmed response and any remote failure the rendered error
string. -/
theorem claim9_assembly_always_raises :
    (∀ (key : String) (script : Nat → Outcome),
      generateReport key script
        = Except.error "'Settings' object has no attribute 'DEFAULT_REPORT_LENGTH'"
      ∧ generateComparisonReport key script
        = Except.error "'Settings' object has no attribute 'DEFAULT_REPORT_LENGTH'")
    ∧ "DEFAULT_REPORT_LENGTH" ∉ settingsAttrs
    ∧ analyzerInit
      = Except.error "'Settings' object has no attribute 'DEEPSEEK_API_KEY'"
    ∧ (∀ (key : String) (script : Nat → Outcome) (r : String),
        (analyzerCall key script).result = Except.ok (some r) →
          tryGenerateReport key script = strTrim r
          ∧ tryGenerateComparisonReport key script = strTrim r)
    ∧ (∀ (key : String) (script : Nat → Outcome) (e : String),
        (analyzerCall key script).result = Except.error e →
          tryGenerateReport key script = "生成报告时出错: " ++ e
          ∧ tryGenerateComparisonReport key script = "生成对比报告时出错: " ++ e) := by
  refine ⟨?_, by decide, by decide, ?_, ?_⟩
  · intro key script
    constructor <;> rfl
  · intro key script r h
    constructor <;> simp [tryGenerateReport, tryGenerateComparisonReport, h]
  · intro key script e h
    constructor <;> simp [tryGenerateReport, tryGenerateComparisonReport, h]

/-- Witness for C9: a concrete invocation raises the `AttributeError`,
and the `try`-block conversion applied to an all-timeouts transport
yields the rendered error text. -/
theorem claim9_witness :
    generateReport "k" (scriptOf [])
      = Except.error "'Settings' object has no attribute 'DEFAULT_REPORT_LENGTH'"
    ∧ tryGenerateReport "k" (scriptOf [])
      = "生成报告时出错: 生成报告超时，请稍后重试" := by
  refine ⟨(claim9_assembly_always_raises.1 "k" (scriptOf [])).1, ?_⟩
  have h := claim9_assembly_always_raises.2.2.2.2 "k" (scriptOf [])
    "生成报告超时，请稍后重试" (by decide)
  exact h.1.trans (by decide)

/-! ## Helper lemmas about the identifier lookup -/

/-- `lookup_by_name` without its redundant empty-table guard. -/
theorem lookupByName_eq (lst : StockList) (s : String) :
    lookupByName lst s
      = match lst.find? (fun p => p.2 == s) with
        | some p => some (p.1, p.2)
        | none =>
          match lst.find? (fun p => listIsSub s.data p.2.data) with
          | some p => some (p.1, p.2)
          | none => none := by
  cases lst with
  | nil => simp [lookupByName]
  | cons a l => simp [lookupByName]

/-- `lookup_by_code` without its redundant empty-table guard. -/
theorem lookupByCode_eq (lst : StockList) (s : String) :
    lookupByCode lst s
      = match lst.find? (fun p => p.1 == cleanCode s) with
        | some p => some (cleanCode s, p.2)
        | none => none := by
  cases lst with
  | nil => simp [lookupByCode]
  | cons a l => simp [lookupByCode]

/-- Splitting a separator-free list leaves it whole. -/
theorem splitOnChar_no_sep (c : Char) :
    ∀ l : List Char, c ∉ l → splitOnChar c l = [l] := by
  intro l
  induction l with
  | nil => intro _; rfl
  | cons x xs ih =>
    intro h
    have hx : ¬ x = c := by
      intro he; subst he; exact h (List.mem_cons_self x xs)
    have hxs : c ∉ xs := fun hm => h (List.mem_cons_of_mem x hm)
    simp [splitOnChar, hx, ih hxs]

/-- Splitting around a single separator occurrence. -/
theorem splitOnChar_append (c : Char) :
    ∀ xs ys : List Char, c ∉ xs → c ∉ ys →
      splitOnChar c (xs ++ c :: ys) = [xs, ys] := by
  intro xs
  induction xs with
  | nil =>
    intro ys _ hy
    simp [splitOnChar, splitOnChar_no_sep c ys hy]
  | cons x xs ih =>
    intro ys hx hy
    have hxc : ¬ x = c := by
      intro he; subst he; exact hx (List.mem_cons_self _ _)
    have hxs : c ∉ xs := fun hm => hx (List.mem_cons_of_mem _ hm)
    simp [splitOnChar, hxc, ih ys hxs hy]

/-! ## Claims about the identifier lookup -/

/-- Stage structure of the literal-pattern reduction `normalizeCode` on
undotted inputs: exact name match, then substring name match (first
match in list order), then exact code match on the cleaned input; all
three stages failing yields `none`. -/
theorem normalizeCode_stages (lst : StockList) (s : String)
    (hnd : '.' ∉ s.data) :
    (∀ q, lst.find? (fun p => p.2 == s) = some q →
      normalizeCode lst s = some (q.1 ++ "." ++ deriveSuffix q.1, q.2))
    ∧ (lst.find? (fun p => p.2 == s) = none →
       ∀ q, lst.find? (fun p => listIsSub s.data p.2.data) = some q →
         normalizeCode lst s = some (q.1 ++ "." ++ deriveSuffix q.1, q.2))
    ∧ (lst.find? (fun p => p.2 == s) = none →
       lst.find? (fun p => listIsSub s.data p.2.data) = none →
       ∀ q, lst.find? (fun p => p.1 == cleanCode s) = some q →
         normalizeCode lst s
           = some (cleanCode s ++ "." ++ deriveSuffix (cleanCode s), q.2))
    ∧ (lst.find? (fun p => p.2 == s) = none →
       lst.find? (fun p => listIsSub s.data p.2.data) = none →
       lst.find? (fun p => p.1 == cleanCode s) = none →
       normalizeCode lst s = none) := by
  refine ⟨?_, ?_, ?_, ?_⟩
  · intro q hq
    simp [normalizeCode, hnd, lookupByName_eq, hq]
  · intro h1 q hq
    simp [normalizeCode, hnd, lookupByName_eq, h1, hq]
  · intro h1 h2 q hq
    simp [normalizeCode, hnd, lookupByName_eq, lookupByCode_eq, h1, h2, hq]
  · intro h1 h2 h3
    simp [normalizeCode, hnd, lookupByName_eq, lookupByCode_eq, h1, h2, h3]

/-! ### The fuzzy stage on metacharacter-free patterns

A pattern containing no regex metacharacter compiles to the plain
sequence of its characters, and searching that sequence is literal
substring containment — connecting the faithful fallible lookup to its
literal-pattern reduction. -/

/-- A character outside the metacharacter list differs from each
metacharacter. -/
theorem ne_of_not_meta {c x : Char} (h : c ∉ reMetaChars)
    (hx : x ∈ reMetaChars) : c ≠ x :=
  fun he => h (he ▸ hx)

/-- An ordinary character in normal mode just appends itself. -/
theorem stepChar_ordinary (c : Char) (pos : Nat) (stk : List Frame)
    (cur : Frame) (h : c ∉ reMetaChars) :
    stepChar c pos stk cur PMode.normal
      = StepRes.cont stk (pushAtom cur (Re.ch c) LastKind.plain) PMode.normal := by
  have h1 := ne_of_not_meta h (show ('|' : Char) ∈ reMetaChars by decide)
  have h2 := ne_of_not_meta h (show ('(' : Char) ∈ reMetaChars by decide)
  have h3 := ne_of_not_meta h (show (')' : Char) ∈ reMetaChars by decide)
  have h4 := ne_of_not_meta h (show ('*' : Char) ∈ reMetaChars by decide)
  have h5 := ne_of_not_meta h (show ('+' : Char) ∈ reMetaChars by decide)
  have h6 := ne_of_not_meta h (show ('?' : Char) ∈ reMetaChars by decide)
  have h7 := ne_of_not_meta h (show ('.' : Char) ∈ reMetaChars by decide)
  have h8 := ne_of_not_meta h (show ('^' : Char) ∈ reMetaChars by decide)
  have h9 := ne_of_not_meta h (show ('$' : Char) ∈ reMetaChars by decide)
  have h10 := ne_of_not_meta h (show ('[' : Char) ∈ reMetaChars by decide)
  have h11 := ne_of_not_meta h (show ('\\' : Char) ∈ reMetaChars by decide)
  simp [stepChar, normalChar, h1, h2, h3, h4, h5, h6, h7, h8, h9, h10, h11]

/-- Scanning a metacharacter-free tail appends its characters to the
current sequence. -/
theorem parseLoop_lit :
    ∀ (p : List Char), (∀ c ∈ p, c ∉ reMetaChars) →
    ∀ (pos : Nat) (fr : Frame),
      parseLoop p pos [] fr PMode.normal
        = Except.ok (joinAlts
            ((seqOfRev ((p.map Re.ch).reverse ++ fr.atoms) :: fr.alts).reverse)) := by
  intro p
  induction p with
  | nil =>
    intro _ pos fr
    simp [parseLoop, finishUp, finishFrame, finishSeq, seqOfRev]
  | cons c rest ih =>
    intro h pos fr
    have hc : c ∉ reMetaChars := h c (List.mem_cons_self _ _)
    have hrest : ∀ x ∈ rest, x ∉ reMetaChars :=
      fun x hx => h x (List.mem_cons_of_mem _ hx)
    have hs := stepChar_ordinary c pos [] fr hc
    simp only [parseLoop, hs]
    rw [ih hrest (pos + 1) (pushAtom fr (Re.ch c) LastKind.plain)]
    simp [pushAtom, List.reverse_cons, List.append_assoc]

/-- A metacharacter-free pattern compiles to the sequence of its
characters. -/
theorem rePatternOf_lit (s : String) (h : ∀ c ∈ s.data, c ∉ reMetaChars) :
    rePatternOf s = Except.ok (litChain s.data) := by
  rw [rePatternOf, parseLoop_lit s.data h 0 ⟨[], [], LastKind.nothing, 0⟩]
  simp [seqOfRev, joinAlts, litChain]

/-- One step of the matcher on a sequence node. -/
theorem mrun_seq (full : List Char) (a b : Re) (f pos : Nat) (k : Nat → Bool) :
    mrun full (f + 1) (Re.seq a b) pos k
      = mrun full f a pos (fun p2 => mrun full f b p2 k) := rfl

/-- One step of the matcher on a single character. -/
theorem mrun_ch (full : List Char) (c : Char) (f pos : Nat) (k : Nat → Bool) :
    mrun full (f + 1) (Re.ch c) pos k
      = (match full[pos]? with
         | some c2 => (c == c2) && k (pos + 1)
         | none => false) := rfl

/-- Matching a character sequence is a prefix test at the current
position. -/
theorem mrun_lit (full : List Char) :
    ∀ (p : List Char) (fuel pos : Nat) (k : Nat → Bool),
      p.length + 1 ≤ fuel →
      mrun full fuel (litChain p) pos k
        = (listIsPre p (full.drop pos) && k (pos + p.length)) := by
  intro p
  induction p with
  | nil =>
    intro fuel pos k hf
    cases fuel with
    | zero => simp at hf
    | succ f => simp [mrun, litChain, listIsPre]
  | cons c rest ih =>
    intro fuel pos k hf
    cases fuel with
    | zero => simp at hf
    | succ f =>
      cases f with
      | zero => simp at hf
      | succ g =>
        have h1 : rest.length + 1 ≤ g + 1 := by simp at hf; omega
        rw [show litChain (c :: rest) = Re.seq (Re.ch c) (litChain rest) from rfl]
        rw [mrun_seq, mrun_ch]
        cases hfp : full[pos]? with
        | none =>
          have hlen : full.length ≤ pos := by
            simpa using List.getElem?_eq_none_iff.mp hfp
          have hd : full.drop pos = [] := List.drop_eq_nil_of_le hlen
          simp [hd, listIsPre]
        | some c2 =>
          have hlt : pos < full.length := by
            rcases List.getElem?_eq_some_iff.mp hfp with ⟨hl, _⟩
            exact hl
          have hval : full[pos] = c2 := by
            rcases List.getElem?_eq_some_iff.mp hfp with ⟨_, hv⟩
            exact hv
          have hd : full.drop pos = c2 :: full.drop (pos + 1) := by
            rw [List.drop_eq_getElem_cons hlt, hval]
          have hih := ih (g + 1) (pos + 1) k h1
          have harith : pos + 1 + rest.length = pos + (rest.length + 1) := by omega
          simp only []
          rw [hih, hd]
          simp only [listIsPre, List.length_cons]
          rw [harith, ← Bool.and_assoc]

/-- Substring containment is a prefix test at some start position. -/
theorem listIsSub_eq_any (p : List Char) :
    ∀ l : List Char,
      listIsSub p l
        = (List.range (l.length + 1)).any (fun i => listIsPre p (l.drop i)) := by
  intro l
  induction l with
  | nil => cases p <;> simp [listIsSub, listIsPre]
  | cons a l ih =>
    rw [show (a :: l).length + 1 = l.length + 1 + 1 from by simp]
    rw [List.range_succ_eq_map]
    simp [listIsSub, List.any_cons, List.any_map, Function.comp_def,
      Nat.succ_eq_add_one, ih, List.drop_succ_cons]

/-- Size of a compiled literal pattern. -/
theorem reSize_litChain (p : List Char) :
    reSize (litChain p) = 2 * p.length + 1 := by
  induction p with
  | nil => rfl
  | cons c rest ih =>
    rw [show litChain (c :: rest) = Re.seq (Re.ch c) (litChain rest) from rfl]
    simp [reSize, ih]
    omega

/-- The driver's fuel suffices for a literal pattern. -/
theorem mfuel_lit_le (p : List Char) (n : Nat) :
    p.length + 1 ≤ mfuel (litChain p) n := by
  rw [mfuel, reSize_litChain]
  calc p.length + 1 ≤ 2 * p.length + 1 + 1 := by omega
    _ ≤ (2 * p.length + 1 + 1) * ((n + 2) * 2) :=
        Nat.le_mul_of_pos_right _ (by omega)
    _ = (2 * p.length + 1 + 1) * (n + 2) * 2 := by ring

/-- Searching a metacharacter-free pattern is literal substring
containment. -/
theorem reSearch_lit (p hay : List Char) :
    reSearch (litChain p) hay = listIsSub p hay := by
  rw [reSearch, listIsSub_eq_any]
  congr 1
  funext i
  rw [mrun_lit hay p _ i (fun _ => true) (mfuel_lit_le p hay.length)]
  simp

/-- On metacharacter-free inputs the faithful `lookup_by_name` agrees
with its literal-substring reduction and cannot raise. -/
theorem lookupByNameE_lit (lst : StockList) (s : String)
    (h : ∀ c ∈ s.data, c ∉ reMetaChars) :
    lookupByNameE lst s = Except.ok (lookupByName lst s) := by
  have hp := rePatternOf_lit s h
  have hsearch : (fun p : String × String => reSearch (litChain s.data) p.2.data)
      = (fun p => listIsSub s.data p.2.data) :=
    funext fun p => reSearch_lit _ _
  by_cases hl : lst = []
  · simp [lookupByNameE, lookupByName, hl]
  · simp only [lookupByNameE, lookupByName, hl, if_false, hp]
    cases h1 : lst.find? (fun p => p.2 == s) with
    | some q => simp
    | none =>
      rw [hsearch]
      cases h2 : lst.find? (fun p => listIsSub s.data p.2.data) with
      | some q => simp
      | none => simp

/-- On metacharacter-free inputs the faithful `normalize_code` agrees
with its literal-substring reduction and cannot raise. -/
theorem normalizeCodeE_lit (lst : StockList) (s : String)
    (h : ∀ c ∈ s.data, c ∉ reMetaChars) :
    normalizeCodeE lst s = Except.ok (normalizeCode lst s) := by
  have hdot : '.' ∉ s.data := fun hm => (h '.' hm) (by decide)
  rw [normalizeCodeE, normalizeCode]
  rw [if_neg hdot, if_neg hdot]
  rw [lookupByNameE_lit lst s h]
  cases hn : lookupByName lst s with
  | some q => rcases q with ⟨code, name⟩; simp
  | none =>
    cases hc : lookupByCode lst s with
    | some q => rcases q with ⟨code, name⟩; simp
    | none => simp

/-- Claim C4 counterexample: the claim promises, for **every** input
without a delimiter, `None` rather than an error when all stages fail;
but the fuzzy stage compiles the input as a regular expression, so the
dot-free input `"("` makes `normalize_code` raise `re.error` from
`str.contains` instead of returning `None`. -/
theorem claim4_counterexample :
    ('.' ∉ ("(" : String).data)
    ∧ normalizeCodeE lookupDemoList "("
        = Except.error "missing ), unterminated subpattern at position 0" := by
  refine ⟨by decide, by decide⟩

/-- Claim C4 (amended): for every delimiter-free input containing no
regex metacharacter, `normalize_code` resolves by exact name match,
then substring (fuzzy) name match taking the first match in list order,
then exact code match, and returns `None` (without raising) when all
stages fail.  In general the fuzzy stage interprets the input as a
Python regular expression: on metacharacter-free inputs it coincides
with substring containment (the bridge conjunct), while metacharacters
change matches (an anchored pattern can miss a name that contains it as
a substring) and a malformed pattern raises `re.error` — see the
counterexample. -/
theorem claim4_amended :
    (∀ (lst : StockList) (s : String), (∀ c ∈ s.data, c ∉ reMetaChars) →
      (∀ q, lst.find? (fun p => p.2 == s) = some q →
        normalizeCodeE lst s
          = Except.ok (some (q.1 ++ "." ++ deriveSuffix q.1, q.2)))
      ∧ (lst.find? (fun p => p.2 == s) = none →
         ∀ q, lst.find? (fun p => listIsSub s.data p.2.data) = some q →
           normalizeCodeE lst s
             = Except.ok (some (q.1 ++ "." ++ deriveSuffix q.1, q.2)))
      ∧ (lst.find? (fun p => p.2 == s) = none →
         lst.find? (fun p => listIsSub s.data p.2.data) = none →
         ∀ q, lst.find? (fun p => p.1 == cleanCode s) = some q →
           normalizeCodeE lst s
             = Except.ok (some (cleanCode s ++ "." ++ deriveSuffix (cleanCode s), q.2)))
      ∧ (lst.find? (fun p => p.2 == s) = none →
         lst.find? (fun p => listIsSub s.data p.2.data) = none →
         lst.find? (fun p => p.1 == cleanCode s) = none →
         normalizeCodeE lst s = Except.ok none))
    ∧ (∀ (lst : StockList) (s : String), (∀ c ∈ s.data, c ∉ reMetaChars) →
        normalizeCodeE lst s = Except.ok (normalizeCode lst s))
    ∧ lookupByNameE [("000001", "平安银行")] "银行$"
        = Except.ok (some ("000001", "平安银行"))
    ∧ lookupByNameE [("000001", "平安银行")] "^银行" = Except.ok none
    ∧ listIsSub "银行".data "平安银行".data = true := by
  refine ⟨?_, normalizeCodeE_lit, by decide, by decide, by decide⟩
  intro lst s hlit
  have hdot : '.' ∉ s.data := fun hm => (hlit '.' hm) (by decide)
  have hb := normalizeCodeE_lit lst s hlit
  have hstages := normalizeCode_stages lst s hdot
  refine ⟨?_, ?_, ?_, ?_⟩
  · intro q hq; rw [hb, hstages.1 q hq]
  · intro h1 q hq; rw [hb, hstages.2.1 h1 q hq]
  · intro h1 h2 q hq; rw [hb, hstages.2.2.1 h1 h2 q hq]
  · intro h1 h2 h3; rw [hb, hstages.2.2.2 h1 h2 h3]

/-- Witness for C4 (amended): `"茅台"` misses the exact-name stage and
resolves at the substring stage of the faithful model. -/
theorem claim4_witness :
    normalizeCodeE lookupDemoList "茅台"
      = Except.ok (some ("600519.SH", "贵州茅台")) := by
  have h := (claim4_amended.1 lookupDemoList "茅台" (by decide)).2.1
    (by decide) ("600519", "贵州茅台") (by decide)
  exact h.trans (by decide)

/-- Claim C5 counterexample: a dotted identifier carrying an explicit
suffix keeps that suffix verbatim, so a successful resolution of
`"000001.SH"` yields suffix `"SH"` even though the leading-digit rule
derives `"SZ"` for code `"000001"` — the suffix of a successful result
is **not** always derived from the matched code's leading digit. -/
theorem claim5_counterexample :
    normalizeCode lookupDemoList "000001.SH" = some ("000001.SH", "平安银行")
    ∧ deriveSuffix "000001" = "SZ"
    ∧ ("000001.SH" : String) ≠ "000001" ++ "." ++ deriveSuffix "000001" := by
  refine ⟨by decide, by decide, by decide⟩

/-- Claim C5 (amended): the leading-digit derivation (`6` → `SH`,
`0`/`3` → `SZ`, otherwise `SH`) governs the suffix of every identifier
resolved without an explicit suffix — undotted identifiers, and dotted
identifiers whose suffix part is empty; a dotted identifier with a
non-empty suffix part keeps that part verbatim.  In particular
`"000001"` resolves with suffix `"SZ"` and `"600000"` with suffix
`"SH"`. -/
theorem claim5_amended :
    (∀ (lst : StockList) (code suf : String), suf ≠ "" →
      '.' ∉ code.data → '.' ∉ suf.data →
      normalizeCode lst (code ++ "." ++ suf)
        = match lookupByCode lst code with
          | some (c, n) => some (c ++ "." ++ suf, n)
          | none => none)
    ∧ (∀ (lst : StockList) (code : String), '.' ∉ code.data →
      normalizeCode lst (code ++ ".")
        = match lookupByCode lst code with
          | some (c, n) => some (c ++ "." ++ deriveSuffix c, n)
          | none => none)
    ∧ (∀ (lst : StockList) (s : String) (r : String × String), '.' ∉ s.data →
      normalizeCode lst s = some r →
      ∃ c n, r = (c ++ "." ++ deriveSuffix c, n))
    ∧ normalizeCode lookupDemoList "000001" = some ("000001.SZ", "平安银行")
    ∧ normalizeCode lookupDemoList "600000" = some ("600000.SH", "浦发银行") := by
  have hdot : ("." : String).data = ['.'] := rfl
  refine ⟨?_, ?_, ?_, by decide, by decide⟩
  · intro lst code suf hsuf hc hs
    have hdata : (code ++ "." ++ suf).data = code.data ++ '.' :: suf.data := by
      simp [String.data_append, hdot]
    have hmem : '.' ∈ (code ++ "." ++ suf).data := by
      rw [hdata]; exact List.mem_append_right _ (List.mem_cons_self _ _)
    have hsplit : splitOnChar '.' (code.data ++ '.' :: suf.data)
        = [code.data, suf.data] :=
      splitOnChar_append '.' code.data suf.data hc hs
    have heta1 : (⟨code.data⟩ : String) = code := rfl
    have heta2 : (⟨suf.data⟩ : String) = suf := rfl
    cases hlc : lookupByCode lst code with
    | none => simp [normalizeCode, hmem, hsplit, heta1, heta2, hlc]
    | some p =>
      rcases p with ⟨c, n⟩
      simp [normalizeCode, hmem, hsplit, heta1, heta2, hlc, hsuf]
  · intro lst code hc
    have hdata : (code ++ ".").data = code.data ++ '.' :: [] := by
      simp [String.data_append, hdot]
    have hmem : '.' ∈ (code ++ ".").data := by
      rw [hdata]; exact List.mem_append_right _ (List.mem_cons_self _ _)
    have hsplit : splitOnChar '.' (code.data ++ ['.']) = [code.data, []] :=
      splitOnChar_append '.' code.data [] hc (by simp)
    have heta1 : (⟨code.data⟩ : String) = code := rfl
    cases hlc : lookupByCode lst code with
    | none => simp [normalizeCode, hmem, hsplit, heta1, hlc]
    | some p =>
      rcases p with ⟨c, n⟩
      simp [normalizeCode, hmem, hsplit, heta1, hlc]
  · intro lst s r hnd hr
    rw [normalizeCode, if_neg hnd] at hr
    rcases hln : lookupByName lst s with _ | ⟨c, n⟩
    · rw [hln] at hr
      rcases hlc : lookupByCode lst s with _ | ⟨c, n⟩
      · rw [hlc] at hr; cases hr
      · rw [hlc] at hr
        exact ⟨c, n, by cases hr; rfl⟩
    · rw [hln] at hr
      exact ⟨c, n, by cases hr; rfl⟩

/-- Witness for C5 (amended): the explicit-suffix branch applied at the
counterexample input. -/
theorem claim5_witness :
    normalizeCode lookupDemoList ("000001" ++ "." ++ "SH")
      = some ("000001.SH", "平安银行") := by
  rw [claim5_amended.1 lookupDemoList "000001" "SH" (by decide) (by decide)
    (by decide)]
  decide

/-- Claim C6: the reference-list cache is populated at most once — the
first access consumes the fetch outcome (caching `[]` when the fetch
fails), and every later access returns the cached table and ignores the
transport entirely, even when the cached table is empty; hence after a
failed population every `lookup_by_name`, `lookup_by_code` and
`normalize_code` call in the process returns `none` and leaves the
cache empty. -/
theorem claim6_cache_permanent :
    getStockList none none = ([], some [])
    ∧ (∀ lst : StockList, getStockList none (some lst) = (lst, some lst))
    ∧ (∀ (lst : StockList) (f : Option StockList),
        getStockList (some lst) f = (lst, some lst))
    ∧ (∀ (f : Option StockList) (q : String),
        lookupByNameS (some []) f q = (none, some []))
    ∧ (∀ (f : Option StockList) (q : String),
        lookupByCodeS (some []) f q = (none, some []))
    ∧ (∀ (f : Option StockList) (q : String),
        normalizeCodeS (some []) f q = (none, some [])) := by
  refine ⟨rfl, fun lst => rfl, fun lst f => rfl, ?_, ?_, ?_⟩
  · intro f q; simp [lookupByNameS, getStockList, lookupByName]
  · intro f q; simp [lookupByCodeS, getStockList, lookupByCode]
  · intro f q
    by_cases hdot : '.' ∈ q.data <;>
      simp [normalizeCodeS, lookupByCodeS, lookupByNameS, getStockList,
        lookupByName, lookupByCode, hdot]

/-! ## Helper lemmas about the metrics engine -/

/-- A frame with at least one column, all columns one row long, is not
empty. -/
theorem dfEmpty_false_of_one_row (df : DataFrame) (hne : df.cols ≠ [])
    (h1 : ∀ c ∈ df.cols, c.2.length = 1) : dfEmpty df = false := by
  rcases df with ⟨cols⟩
  cases cols with
  | nil => cases hne rfl
  | cons c cs =>
    have hc := h1 c (List.mem_cons_self c cs)
    have hce : c.2.isEmpty = false := by
      cases h2 : c.2 with
      | nil => rw [h2] at hc; simp at hc
      | cons _ _ => rfl
    simp [dfEmpty, hce]

/-- The sniffed close column is one of the frame's columns. -/
theorem closeColumn_mem (df : DataFrame) (cl : String × List ℚ)
    (h : closeColumn df = some cl) : cl ∈ df.cols :=
  List.mem_reverse.mp (List.mem_of_find?_eq_some h)

/-- The close column sniffed by the trend analysis is one of the
frame's columns. -/
theorem trendCloseColumn_mem (df : DataFrame) (cl : String × List ℚ)
    (h : trendCloseColumn df = some cl) : cl ∈ df.cols :=
  List.mem_of_find?_eq_some h

/-! ## Claims about the metrics engine -/

/-- Claim C7 counterexample: a one-row frame with a recognized volume
column yields the four close statistics **and** the three volume
statistics — seven fields, not "only" the four close fields the claim
allows. -/
theorem claim7_counterexample :
    (calculateMetrics ⟨[("close", [10]), ("volume", [100])]⟩).map Prod.fst
      = ["最新收盘价", "最高价", "最低价", "平均收盘价",
         "平均成交量", "最大成交量", "最新成交量"]
    ∧ (∀ c ∈ [("close", [(10 : ℚ)]), ("volume", [(100 : ℚ)])], c.2.length = 1)
    ∧ (calculateMetrics ⟨[("close", [10]), ("volume", [100])]⟩).map Prod.fst
      ≠ ["最新收盘价", "最高价", "最低价", "平均收盘价"] := by
  refine ⟨by decide, by decide, by decide⟩

/-- Claim C7 (amended): `calculate_metrics` of an empty frame is the
empty mapping; of a one-row frame (with a recognized close column) it
consists of exactly the latest/max/min/mean close, followed by the
mean/max/latest volume when a volume column is recognized — the
change, drawdown and volatility fields are all omitted. -/
theorem claim7_amended :
    (∀ df : DataFrame, dfEmpty df = true → calculateMetrics df = [])
    ∧ (∀ (df : DataFrame) (cl : String × List ℚ), df.cols ≠ [] →
      (∀ c ∈ df.cols, c.2.length = 1) → closeColumn df = some cl →
      (calculateMetrics df).map Prod.fst
        = ["最新收盘价", "最高价", "最低价", "平均收盘价"]
          ++ (match volumeColumn df with
              | some _ => ["平均成交量", "最大成交量", "最新成交量"]
              | none => [])) := by
  constructor
  · intro df h
    simp [calculateMetrics, h]
  · intro df cl hne h1 hcl
    have hemp := dfEmpty_false_of_one_row df hne h1
    have hlen : cl.2.length = 1 := h1 cl (closeColumn_mem df cl hcl)
    cases hv : volumeColumn df with
    | none => simp [calculateMetrics, hemp, hcl, hlen, hv]
    | some vl => simp [calculateMetrics, volumeBlock, hemp, hcl, hlen, hv]

/-- Witness for C7 (amended): concrete empty and one-row frames. -/
theorem claim7_witness :
    calculateMetrics ⟨[("close", ([] : List ℚ))]⟩ = []
    ∧ (calculateMetrics ⟨[("close", [(10 : ℚ)])]⟩).map Prod.fst
      = ["最新收盘价", "最高价", "最低价", "平均收盘价"] := by
  constructor
  · exact claim7_amended.1 ⟨[("close", [])]⟩ (by decide)
  · have h := claim7_amended.2 ⟨[("close", [10])]⟩ ("close", [10])
      (by decide) (by decide) (by decide)
    exact h.trans (by decide)

/-- Claim C10: the volume-statistics block is guarded only by the
recognition of a volume column — for every non-empty frame whose close
column is recognized, a recognized volume column contributes the mean,
max and latest volume, with no requirement of at least two rows. -/
theorem claim10_volume_guard :
    ∀ (df : DataFrame) (cl vl : String × List ℚ),
      dfEmpty df = false → closeColumn df = some cl →
      volumeColumn df = some vl →
      ("平均成交量", MVal.q (listMean vl.2)) ∈ calculateMetrics df
      ∧ ("最大成交量", MVal.q (listMax vl.2)) ∈ calculateMetrics df
      ∧ ("最新成交量", MVal.q (vl.2.getLastD 0)) ∈ calculateMetrics df := by
  intro df cl vl hemp hcl hvl
  refine ⟨?_, ?_, ?_⟩ <;>
    simp [calculateMetrics, volumeBlock, hemp, hcl, hvl, List.mem_append]

/-- Witness for C10: a one-row frame with close and volume columns
carries all three volume statistics. -/
theorem claim10_witness :
    ("平均成交量", MVal.q (listMean [(100 : ℚ)]))
      ∈ calculateMetrics ⟨[("close", [10]), ("volume", [100])]⟩
    ∧ ("最大成交量", MVal.q (listMax [(100 : ℚ)]))
      ∈ calculateMetrics ⟨[("close", [10]), ("volume", [100])]⟩
    ∧ ("最新成交量", MVal.q (([(100 : ℚ)]).getLastD 0))
      ∈ calculateMetrics ⟨[("close", [10]), ("volume", [100])]⟩ :=
  claim10_volume_guard ⟨[("close", [10]), ("volume", [100])]⟩
    ("close", [10]) ("volume", [100]) (by decide) (by decide) (by decide)

/-- Claim C8 counterexample: an empty series has fewer than 2 rows, yet
`get_trend_analysis` returns the empty mapping, not the default neutral
assessment. -/
theorem claim8_counterexample :
    getTrendAnalysis ⟨[]⟩ = []
    ∧ dfEmpty ⟨[]⟩ = true
    ∧ getTrendAnalysis ⟨[]⟩ ≠ defaultTrend
    ∧ defaultTrend = [("趋势方向", "横盘"), ("趋势强度", "弱"), ("描述", "")] := by
  refine ⟨by decide, by decide, by decide, by decide⟩

/-- Claim C8 (amended): for a non-empty frame with a recognized close
column, a series with fewer than 2 rows yields the default neutral
assessment (flat direction, weak strength, empty description); with at
least 2 rows the direction is classified by the sign of the
ordinary-least-squares slope of close against row index and the
strength by the fit's `R²` (thresholds `0.7` and `0.4` on `|R²|`);
`R²` is taken as `0` whenever the total variance is `0`.  (An empty
frame, by contrast, yields the empty mapping — see the
counterexample.) -/
theorem claim8_amended :
    (∀ (df : DataFrame) (cl : String × List ℚ), dfEmpty df = false →
      trendCloseColumn df = some cl → cl.2.length < 2 →
      getTrendAnalysis df = defaultTrend)
    ∧ (∀ (df : DataFrame) (cl : String × List ℚ), dfEmpty df = false →
      trendCloseColumn df = some cl → 2 ≤ cl.2.length →
      (((getTrendAnalysis df).lookup "趋势方向" = some "上涨" ↔ olsSlope cl.2 > 0)
        ∧ ((getTrendAnalysis df).lookup "趋势方向" = some "下跌" ↔ olsSlope cl.2 < 0)
        ∧ ((getTrendAnalysis df).lookup "趋势方向" = some "横盘" ↔ olsSlope cl.2 = 0))
      ∧ (((getTrendAnalysis df).lookup "趋势强度" = some "强"
            ↔ |rSquared cl.2| > 7 / 10)
        ∧ ((getTrendAnalysis df).lookup "趋势强度" = some "中"
            ↔ (|rSquared cl.2| ≤ 7 / 10 ∧ |rSquared cl.2| > 4 / 10))
        ∧ ((getTrendAnalysis df).lookup "趋势强度" = some "弱"
            ↔ |rSquared cl.2| ≤ 4 / 10)))
    ∧ (∀ y : List ℚ, ssTot y = 0 → rSquared y = 0) := by
  refine ⟨?_, ?_, ?_⟩
  · intro df cl hemp hcl hlen
    simp [getTrendAnalysis, hemp, hcl, hlen]
  · intro df cl hemp hcl hlen
    have hnl : ¬ cl.2.length < 2 := by omega
    have hdir : (getTrendAnalysis df).lookup "趋势方向"
        = some (if olsSlope cl.2 > 0 then "上涨"
            else if olsSlope cl.2 < 0 then "下跌" else "横盘") := by
      simp [getTrendAnalysis, hemp, hcl, hnl, List.lookup]
    have hstr : (getTrendAnalysis df).lookup "趋势强度"
        = some (if |rSquared cl.2| > 7 / 10 then "强"
            else if |rSquared cl.2| > 4 / 10 then "中" else "弱") := by
      simp [getTrendAnalysis, hemp, hcl, hnl, List.lookup]
    constructor
    · rcases lt_trichotomy (olsSlope cl.2) 0 with h | h | h
      · have h1 : ¬ olsSlope cl.2 > 0 := lt_asymm h
        refine ⟨?_, ?_, ?_⟩ <;> simp [hdir, h, h1, ne_of_lt h]
      · refine ⟨?_, ?_, ?_⟩ <;> simp [hdir, h]
      · refine ⟨?_, ?_, ?_⟩ <;> simp [hdir, h, lt_asymm h, (ne_of_gt h)]
    · rcases le_or_lt (|rSquared cl.2|) (4 / 10) with h4 | h4
      · have h7 : ¬ |rSquared cl.2| > 7 / 10 := by
          intro hh; linarith
        have h4' : ¬ |rSquared cl.2| > 4 / 10 := not_lt.mpr h4
        refine ⟨?_, ?_, ?_⟩ <;> simp [hstr, h4, h4', h7]
      · rcases le_or_lt (|rSquared cl.2|) (7 / 10) with h7 | h7
        · have h7' : ¬ |rSquared cl.2| > 7 / 10 := not_lt.mpr h7
          have h4' : ¬ |rSquared cl.2| ≤ 4 / 10 := not_le.mpr h4
          refine ⟨?_, ?_, ?_⟩ <;> simp [hstr, h4, h4', h7, h7']
        · have h4' : ¬ |rSquared cl.2| ≤ 4 / 10 := by
            intro hh; linarith
          have h7' : ¬ |rSquared cl.2| ≤ 7 / 10 := not_le.mpr h7
          refine ⟨?_, ?_, ?_⟩ <;> simp [hstr, h4', h7, h7']
  · intro y h
    simp [rSquared, h]

/-- Witness for C8 (amended): a concrete one-row close series yields
the default neutral assessment. -/
theorem claim8_witness :
    getTrendAnalysis ⟨[("close", [(5 : ℚ)])]⟩ = defaultTrend :=
  claim8_amended.1 ⟨[("close", [5])]⟩ ("close", [5])
    (by decide) (by decide) (by decide)

end StockMCP
